import Mathlib

/-!
# MemProfiler: the allocation-tracking store, the wrappers and the leak report

A shallow embedding of `MyPinTool.cpp`:

* `Statistics` with its six counters and the live map `memMap`, the getters and the four
  `Count*` mutators;
* the globals read by `TRACE_ENABLED`, `GetStackFrame`, and the four wrappers
  `WrapMalloc`, `WrapCalloc`, `WrapRealloc`, `WrapFree`;
* `PrintBytes` and `TearDown`, whose output is the sequence of values inserted into `std::cout`,
  or the fault on which the process dies when `PrintBytes` reads an address that cannot be read;
* `CountMalloc` statement by statement, as several threads run it under a schedule;
* the loop of `tests/performer.cpp`, as the sequence of wrapper calls it makes.

The theorems settle the claims C1 to C10 on these definitions.

Conventions.

* `UINT32` and `UINT64` values are natural numbers; every `+=`, `++` and `*` of the source is
  reduced modulo `2^32` or `2^64`.
* A `VOID *` is a natural number, `nullptr` is `0`.
* Outside the section on threads one thread runs the wrappers, so the `PIN_MUTEX` lock/unlock
  pairs are no-ops and the thread-local slot `g_backtraceGuard` is one value, that of the
  calling thread.  In the section on threads each mutex has a holder and a thread that asks
  for a mutex held by another one waits.
* The memory of the process is a function from addresses to bytes that is undefined where a
  read faults.
* `std::unordered_map<VOID *, MemInfoItem>` is a list of key/record pairs with one pair per key;
  the order of the list stands for the (unspecified) iteration order of the container.
* The real allocator functions and `backtrace` live outside the tool.  The real functions are
  parameters of the wrappers, as in the source.  `backtrace` runs in the profiled process, where
  the allocator symbols are replaced, so a call of it may re-enter the wrappers: it is a
  function of the globals that returns the frames it wrote together with the globals it leaves.
-/

namespace MemProfiler

/-! ## Common definitions -/

/-- The marker `TLS_MARKER_TRUE`, `reinterpret_cast<VOID *>(0x01)`. -/
def TLS_MARKER_TRUE : Nat := 0x01

/-- The marker `TLS_MARKER_FALSE`, `reinterpret_cast<VOID *>(0x00)`. -/
def TLS_MARKER_FALSE : Nat := 0x00

/-- Number of values of a `UINT32`. -/
def UINT32_MOD : Nat := 2 ^ 32

/-- Number of values of a `UINT64`. -/
def UINT64_MOD : Nat := 2 ^ 64

/-- The record `MemInfoItem`: the size of a block and the return address of its allocation. -/
structure MemInfoItem where
  size : Nat
  retAddr : Nat
  deriving DecidableEq, Repr

/-! ## The live map -/

/-- The container `std::unordered_map<VOID *, MemInfoItem>`. -/
abbrev MemMap := List (Nat × MemInfoItem)

/-- The call `memMap.erase(memAddr)`: the pair with that key, if any, is removed. -/
def MemMap.erase (m : MemMap) (memAddr : Nat) : MemMap :=
  m.filter (fun e => e.1 != memAddr)

/-- The statement `memMap[memAddr] = item`: the record of the key is created or overwritten. -/
def MemMap.assign (m : MemMap) (memAddr : Nat) (item : MemInfoItem) : MemMap :=
  (memAddr, item) :: MemMap.erase m memAddr

/-- The record stored under a key, if there is one. -/
def MemMap.find (m : MemMap) (memAddr : Nat) : Option MemInfoItem :=
  (List.find? (fun e => e.1 == memAddr) m).map Prod.snd

/-- The keys of the map, in iteration order. -/
def MemMap.keys (m : MemMap) : List Nat :=
  m.map Prod.fst

/-! ## The class `Statistics` -/

/-- The data members of `Statistics` (the mutexes have no state in a sequential run). -/
structure Statistics where
  mallocCount : Nat
  callocCount : Nat
  reallocCount : Nat
  mallocedBytes : Nat
  callocedBytes : Nat
  reallocedBytes : Nat
  memMap : MemMap
  deriving DecidableEq, Repr

namespace Statistics

/-- The constructor `Statistics()`: all counters zero, empty map. -/
def init : Statistics :=
  { mallocCount := 0, callocCount := 0, reallocCount := 0,
    mallocedBytes := 0, callocedBytes := 0, reallocedBytes := 0,
    memMap := [] }

def GetMallocCount (s : Statistics) : Nat := s.mallocCount

def GetCallocCount (s : Statistics) : Nat := s.callocCount

def GetReallocCount (s : Statistics) : Nat := s.reallocCount

def GetMallocedBytes (s : Statistics) : Nat := s.mallocedBytes

def GetCallocedBytes (s : Statistics) : Nat := s.callocedBytes

def GetReallocedBytes (s : Statistics) : Nat := s.reallocedBytes

def GetMemoryMapClone (s : Statistics) : MemMap := s.memMap

def CountMalloc (s : Statistics) (memAddr memSize retAddr : Nat) : Statistics :=
  { s with
    mallocedBytes := (s.mallocedBytes + memSize) % UINT64_MOD
    mallocCount := (s.mallocCount + 1) % UINT32_MOD
    memMap := s.memMap.assign memAddr { size := memSize, retAddr := retAddr } }

def CountCalloc (s : Statistics) (memAddr memSize retAddr : Nat) : Statistics :=
  { s with
    callocedBytes := (s.callocedBytes + memSize) % UINT64_MOD
    callocCount := (s.callocCount + 1) % UINT32_MOD
    memMap := s.memMap.assign memAddr { size := memSize, retAddr := retAddr } }

def CountRealloc (s : Statistics) (memAddr memSize retAddr : Nat) : Statistics :=
  { s with
    reallocedBytes := (s.reallocedBytes + memSize) % UINT64_MOD
    reallocCount := (s.reallocCount + 1) % UINT32_MOD
    memMap :=
      if memSize != 0 then s.memMap.assign memAddr { size := memSize, retAddr := retAddr }
      else s.memMap }

def CountFree (s : Statistics) (memAddr : Nat) : Statistics :=
  { s with memMap := s.memMap.erase memAddr }

end Statistics

/-! ## Globals, `TRACE_ENABLED`, `GetStackFrame` -/

/-- The global variables the wrappers read and write: the singleton `g_stats`, the flag
`g_areWeInMain`, and the value stored for the calling thread in the slot `g_backtraceGuard`. -/
structure Globals where
  g_stats : Statistics
  g_areWeInMain : Bool
  g_backtraceGuard : Nat
  deriving DecidableEq, Repr

/-- What a call `g_backtrace(buffer, size)` does: from the requested number of frames and the
globals at the call, the addresses written to `buffer` (their number is the returned `nptrs`)
and the globals when it returns. -/
abbrev BacktracePtr := Nat → Globals → List Nat × Globals

def FRAMES_NUM_REQUIRED : Nat := 4

/-- The function `GetStackFrame`.  The pointer `g_backtrace` is tested by `TRACE_ENABLED` before
every call, so the branch of a null pointer is never taken. -/
def GetStackFrame (g_backtrace : Option BacktracePtr) (g : Globals) : Nat × Globals :=
  match g_backtrace with
  | none => (0, g)
  | some backtrace =>
    let r := backtrace FRAMES_NUM_REQUIRED g
    let buffer := r.1
    let nptrs := buffer.length
    let retAddr := if nptrs ≥ FRAMES_NUM_REQUIRED then buffer.getD (FRAMES_NUM_REQUIRED - 1) 0 else 0
    (retAddr, r.2)

/-- The condition `TRACE_ENABLED`. -/
def TRACE_ENABLED (g_backtrace : Option BacktracePtr) (g : Globals) : Bool :=
  g.g_areWeInMain && g_backtrace.isSome && (g.g_backtraceGuard == TLS_MARKER_FALSE)

/-! ## The wrappers -/

def WrapMalloc (g_backtrace : Option BacktracePtr) (g : Globals)
    (realMalloc : Nat → Nat) (arg0 : Nat) : Nat × Globals :=
  let memAddr := realMalloc arg0
  let memSize := arg0
  if TRACE_ENABLED g_backtrace g then
    let g1 := { g with g_backtraceGuard := TLS_MARKER_TRUE }
    let r := GetStackFrame g_backtrace g1
    let g2 := { r.2 with g_stats := r.2.g_stats.CountMalloc memAddr memSize r.1 }
    (memAddr, { g2 with g_backtraceGuard := TLS_MARKER_FALSE })
  else
    (memAddr, g)

def WrapCalloc (g_backtrace : Option BacktracePtr) (g : Globals)
    (realCalloc : Nat → Nat → Nat) (arg0 arg1 : Nat) : Nat × Globals :=
  let memAddr := realCalloc arg0 arg1
  let memSize := (arg0 * arg1) % UINT64_MOD
  if TRACE_ENABLED g_backtrace g then
    let r := GetStackFrame g_backtrace g
    (memAddr, { r.2 with g_stats := r.2.g_stats.CountCalloc memAddr memSize r.1 })
  else
    (memAddr, g)

def WrapRealloc (g_backtrace : Option BacktracePtr) (g : Globals)
    (realRealloc : Nat → Nat → Nat) (arg0 arg1 : Nat) : Nat × Globals :=
  let memAddr := realRealloc arg0 arg1
  let memSize := arg1
  if TRACE_ENABLED g_backtrace g then
    let r := GetStackFrame g_backtrace g
    (memAddr, { r.2 with g_stats := r.2.g_stats.CountRealloc memAddr memSize r.1 })
  else
    (memAddr, g)

def WrapFree (g : Globals) (realFree : Nat → Unit) (arg0 : Nat) : Globals :=
  let _ := realFree arg0
  { g with g_stats := g.g_stats.CountFree arg0 }

/-! ## The report -/

/-- The arguments of one `CountMalloc` call. -/
structure TrackedCall where
  memAddr : Nat
  memSize : Nat
  retAddr : Nat
  deriving DecidableEq, Repr

/-- A thread: `calls` holds the call it is making, at the head, and those it has still to
make; `pc` is the statement of `CountMalloc` it is to run next for the call at the head;
`tmp` is the value it read last. -/
structure Thread where
  pc : Nat
  tmp : Nat
  calls : List TrackedCall
  deriving DecidableEq, Repr

/-- The process: the store, the holder of each of the mutexes `mallocGuard` and `mapGuard`
that `CountMalloc` takes, and the threads. -/
structure Process where
  g_stats : Statistics
  mallocGuard : Option Nat
  mapGuard : Option Nat
  threads : Nat → Thread

/-- One step of thread `t` in `CountMalloc`:
`0` `PIN_MutexLock(&mallocGuard)`, `1` and `2` `mallocedBytes += memSize`, `3` and `4`
`++mallocCount`, `5` `PIN_MutexUnlock(&mallocGuard)`, `6` `PIN_MutexLock(&mapGuard)`,
`7` `memMap[memAddr] = { memSize, retAddr }`, `8` `PIN_MutexUnlock(&mapGuard)` and return. -/
def stepThread (t : Nat) (p : Process) : Process :=
  match (p.threads t).calls with
  | [] => p
  | c :: rest =>
    match (p.threads t).pc with
    | 0 =>
      match p.mallocGuard with
      | some _ => p
      | none =>
        { p with
          mallocGuard := some t
          threads := Function.update p.threads t { p.threads t with pc := 1 } }
    | 1 =>
      { p with
        threads := Function.update p.threads t
          { p.threads t with pc := 2, tmp := p.g_stats.mallocedBytes } }
    | 2 =>
      { p with
        g_stats := { p.g_stats with
          mallocedBytes := ((p.threads t).tmp + c.memSize) % UINT64_MOD }
        threads := Function.update p.threads t { p.threads t with pc := 3 } }
    | 3 =>
      { p with
        threads := Function.update p.threads t
          { p.threads t with pc := 4, tmp := p.g_stats.mallocCount } }
    | 4 =>
      { p with
        g_stats := { p.g_stats with mallocCount := ((p.threads t).tmp + 1) % UINT32_MOD }
        threads := Function.update p.threads t { p.threads t with pc := 5 } }
    | 5 =>
      { p with
        mallocGuard := none
        threads := Function.update p.threads t { p.threads t with pc := 6 } }
    | 6 =>
      match p.mapGuard with
      | some _ => p
      | none =>
        { p with
          mapGuard := some t
          threads := Function.update p.threads t { p.threads t with pc := 7 } }
    | 7 =>
      { p with
        g_stats := { p.g_stats with
          memMap := p.g_stats.memMap.assign c.memAddr
            { size := c.memSize, retAddr := c.retAddr } }
        threads := Function.update p.threads t { p.threads t with pc := 8 } }
    | 8 =>
      { p with
        mapGuard := none
        threads := Function.update p.threads t
          { pc := 0, tmp := (p.threads t).tmp, calls := rest } }
    | _ => p

/-- The process after the steps of a schedule. -/
def runSchedule (p : Process) (schedule : List Nat) : Process :=
  schedule.foldl (fun p t => stepThread t p) p

/-- The process at the start: a fresh store, both mutexes free, and `T` threads, thread `t`
about to make the calls `programs t`. -/
def startProcess (T : Nat) (programs : Nat → List TrackedCall) : Process :=
  { g_stats := Statistics.init, mallocGuard := none, mapGuard := none,
    threads := fun t => { pc := 0, tmp := 0, calls := if t < T then programs t else [] } }

/-- Each of the threads `0 .. T - 1` has returned from its last call. -/
def Finished (T : Nat) (p : Process) : Prop :=
  ∀ t, t < T → (p.threads t).calls = []

/-- The schedule that lets thread 0 make all its calls, then thread 1, and so on to thread
`T - 1`: nine steps for each call. -/
def sequentialSchedule (programs : Nat → List TrackedCall) : Nat → List Nat
  | 0 => []
  | T + 1 => sequentialSchedule programs T ++ List.replicate (9 * (programs T).length) T

/-- The number of `++mallocCount` that a thread has still to make. -/
def pendingCount (th : Thread) : Nat :=
  match th.calls with
  | [] => 0
  | _ :: rest => rest.length + (if th.pc < 5 then 1 else 0)

/-- The number of bytes that a thread has still to add to `mallocedBytes`. -/
def pendingBytes (th : Thread) : Nat :=
  match th.calls with
  | [] => 0
  | c :: rest => (rest.map TrackedCall.memSize).sum + (if th.pc < 3 then c.memSize else 0)

/-- The thread is between its `PIN_MutexLock(&mallocGuard)` and its
`PIN_MutexUnlock(&mallocGuard)`. -/
def InCritical (th : Thread) : Prop :=
  th.calls ≠ [] ∧ 1 ≤ th.pc ∧ th.pc ≤ 5

/-- What holds of the process at every moment of every schedule, for `T` threads that make
`N` calls of `B` bytes in all. -/
structure Inv (T N B : Nat) (p : Process) : Prop where
  excl : ∀ t, InCritical (p.threads t) → p.mallocGuard = some t
  regBytes : ∀ t, (p.threads t).calls ≠ [] → (p.threads t).pc = 2 →
    (p.threads t).tmp = p.g_stats.mallocedBytes
  regCount : ∀ t, (p.threads t).calls ≠ [] → (p.threads t).pc = 4 →
    (p.threads t).tmp = p.g_stats.mallocCount
  count : (p.g_stats.mallocCount
      + (Finset.range T).sum (fun t => pendingCount (p.threads t))) % UINT32_MOD
    = N % UINT32_MOD
  bytes : (p.g_stats.mallocedBytes
      + (Finset.range T).sum (fun t => pendingBytes (p.threads t))) % UINT64_MOD
    = B % UINT64_MOD
  countRange : p.g_stats.mallocCount < UINT32_MOD
  bytesRange : p.g_stats.mallocedBytes < UINT64_MOD
  idle : ∀ t, T ≤ t → (p.threads t).calls = []

/-! ## Runs and stack unwinders used in the statements -/

/-- A run of allocate calls: the `i`-th call is `WrapMalloc(realMalloc_i, size_i)`, where
`realMalloc_i` is what the real allocator does at that call. -/
def allocateRun (g_backtrace : Option BacktracePtr) (g : Globals)
    (calls : List ((Nat → Nat) × Nat)) : Globals :=
  calls.foldl (fun g c => (WrapMalloc g_backtrace g c.1 c.2).2) g

/-- The addresses returned by the calls of a run of allocate calls. -/
def returnedAddresses (calls : List ((Nat → Nat) × Nat)) : List Nat :=
  calls.map (fun c => c.1 c.2)

/-- The loop of `tests/performer.cpp`, `for (i < cycles_num) delete (new int(i));`, seen
from the wrappers: each turn allocates `sizeof(int)` bytes and frees the block it got;
`realMalloc i` is what the real allocator does in turn `i`. -/
def performerLoop (g_backtrace : Option BacktracePtr) (realMalloc : Nat → Nat → Nat)
    (realFree : Nat → Unit) (cycles_num : Nat) (g : Globals) : Globals :=
  (List.range cycles_num).foldl
    (fun g i =>
      let r := WrapMalloc g_backtrace g (realMalloc i) 4
      WrapFree r.2 realFree r.1)
    g

/-- An unwinder leaves the globals alone whenever it is called with the guard suppressed.
This is so for every unwinder that reaches the store only through `WrapMalloc`, `WrapCalloc`
and `WrapRealloc`, which do nothing under a suppressed guard. -/
def QuietWhenSuppressed (backtrace : BacktracePtr) : Prop :=
  ∀ size g, g.g_backtraceGuard = TLS_MARKER_TRUE → (backtrace size g).2 = g

/-- An unwinder that makes no allocator call: it writes the first `size` of `frames`. -/
def quietBacktrace (frames : List Nat) : BacktracePtr :=
  fun size g => (frames.take size, g)

/-- An unwinder that allocates while it works: it calls `malloc(size)` once, which the real
allocator answers with `addr`, then writes the first frames of `frames`.  Its call of `malloc`
enters `WrapMalloc`, which may call the unwinder again; `depth` bounds that nesting (at depth
zero the nested unwinder makes no call). -/
def reentrantBacktrace (frames : List Nat) (addr size : Nat) : Nat → BacktracePtr
  | 0 => quietBacktrace frames
  | depth + 1 => fun n g =>
    (frames.take n,
      (WrapMalloc (some (reentrantBacktrace frames addr size depth)) g (fun _ => addr) size).2)

/-- An unwinder that makes no allocator call and reports, as the frame that `GetStackFrame`
selects, the value of the guard of the calling thread at the moment it is invoked. -/
def guardProbe : BacktracePtr :=
  fun _ g => ([0, 0, 0, g.g_backtraceGuard], g)

/-- A call of one of the four mutators of `Statistics`, with its arguments. -/
inductive StoreOp where
  | CountMalloc (memAddr memSize retAddr : Nat)
  | CountCalloc (memAddr memSize retAddr : Nat)
  | CountRealloc (memAddr memSize retAddr : Nat)
  | CountFree (memAddr : Nat)
  deriving DecidableEq, Repr

/-- The store after the call. -/
def StoreOp.run (s : Statistics) : StoreOp → Statistics
  | .CountMalloc memAddr memSize retAddr => s.CountMalloc memAddr memSize retAddr
  | .CountCalloc memAddr memSize retAddr => s.CountCalloc memAddr memSize retAddr
  | .CountRealloc memAddr memSize retAddr => s.CountRealloc memAddr memSize retAddr
  | .CountFree memAddr => s.CountFree memAddr

/-- The call makes one of its two additions leave the range of the counter: the `++` of a
count that is `2^32 - 1`, or the `+=` of a total that passes `2^64 - 1`. -/
def StoreOp.overflows (s : Statistics) : StoreOp → Bool
  | .CountMalloc _ memSize _ =>
    decide (UINT32_MOD ≤ s.mallocCount + 1) || decide (UINT64_MOD ≤ s.mallocedBytes + memSize)
  | .CountCalloc _ memSize _ =>
    decide (UINT32_MOD ≤ s.callocCount + 1) || decide (UINT64_MOD ≤ s.callocedBytes + memSize)
  | .CountRealloc _ memSize _ =>
    decide (UINT32_MOD ≤ s.reallocCount + 1) || decide (UINT64_MOD ≤ s.reallocedBytes + memSize)
  | .CountFree _ => false

/-- The store after a sequence of calls. -/
def runOps (s : Statistics) (ops : List StoreOp) : Statistics :=
  ops.foldl StoreOp.run s

/-- No call of the sequence, run from `s`, overflows a counter. -/
def neverOverflows (s : Statistics) : List StoreOp → Bool
  | [] => true
  | op :: ops => !StoreOp.overflows s op && neverOverflows (StoreOp.run s op) ops

/-- Each of the six counters of `t` is at least the same counter of `s`. -/
def countersLE (s t : Statistics) : Prop :=
  s.GetMallocCount ≤ t.GetMallocCount ∧ s.GetCallocCount ≤ t.GetCallocCount ∧
  s.GetReallocCount ≤ t.GetReallocCount ∧ s.GetMallocedBytes ≤ t.GetMallocedBytes ∧
  s.GetCallocedBytes ≤ t.GetCallocedBytes ∧ s.GetReallocedBytes ≤ t.GetReallocedBytes

theorem MemMap.erase_cons (e : Nat × MemInfoItem) (m : MemMap) (a : Nat) :
    MemMap.erase (e :: m) a = if e.1 = a then MemMap.erase m a else e :: MemMap.erase m a := by
  by_cases h : e.1 = a <;> simp [MemMap.erase, List.filter_cons, h]

theorem MemMap.find_cons (e : Nat × MemInfoItem) (m : MemMap) (a : Nat) :
    MemMap.find (e :: m) a = if e.1 = a then some e.2 else MemMap.find m a := by
  by_cases h : e.1 = a <;> simp [MemMap.find, List.find?_cons, h]

theorem MemMap.find_erase_self (m : MemMap) (a : Nat) : MemMap.find (MemMap.erase m a) a = none := by
  induction m with
  | nil => rfl
  | cons e m ih =>
    rw [MemMap.erase_cons]
    by_cases h : e.1 = a
    · rw [if_pos h]; exact ih
    · rw [if_neg h, MemMap.find_cons, if_neg h]; exact ih

theorem MemMap.find_erase_of_ne (m : MemMap) {a b : Nat} (h : b ≠ a) :
    MemMap.find (MemMap.erase m a) b = MemMap.find m b := by
  induction m with
  | nil => rfl
  | cons e m ih =>
    rw [MemMap.erase_cons, MemMap.find_cons]
    by_cases h1 : e.1 = a
    · have h2 : ¬ e.1 = b := fun hb => h (hb.symm.trans h1)
      rw [if_pos h1, if_neg h2]; exact ih
    · rw [if_neg h1, MemMap.find_cons]
      by_cases h2 : e.1 = b
      · rw [if_pos h2, if_pos h2]
      · rw [if_neg h2, if_neg h2]; exact ih

theorem MemMap.erase_of_find_none (m : MemMap) {a : Nat} (h : MemMap.find m a = none) :
    MemMap.erase m a = m := by
  induction m with
  | nil => rfl
  | cons e m ih =>
    rw [MemMap.find_cons] at h
    by_cases h1 : e.1 = a
    · rw [if_pos h1] at h; cases h
    · rw [if_neg h1] at h
      rw [MemMap.erase_cons, if_neg h1, ih h]

theorem MemMap.find_assign_self (m : MemMap) (a : Nat) (v : MemInfoItem) :
    MemMap.find (MemMap.assign m a v) a = some v := by
  simp [MemMap.assign, MemMap.find_cons]

theorem MemMap.find_assign_of_ne (m : MemMap) {a b : Nat} (v : MemInfoItem) (h : b ≠ a) :
    MemMap.find (MemMap.assign m a v) b = MemMap.find m b := by
  have h' : ¬ a = b := fun e => h e.symm
  simp [MemMap.assign, MemMap.find_cons, h', MemMap.find_erase_of_ne m h]

theorem MemMap.mem_keys_iff_find (m : MemMap) (a : Nat) :
    a ∈ MemMap.keys m ↔ MemMap.find m a ≠ none := by
  induction m with
  | nil => simp [MemMap.keys, MemMap.find]
  | cons e m ih =>
    rw [MemMap.find_cons]
    by_cases h : e.1 = a
    · simp [MemMap.keys, h]
    · have h' : ¬ a = e.1 := fun x => h x.symm
      rw [if_neg h, ← ih]; simp [MemMap.keys, h']

theorem MemMap.keys_erase (m : MemMap) (a : Nat) :
    MemMap.keys (MemMap.erase m a) = (MemMap.keys m).filter (fun k => k != a) := by
  induction m with
  | nil => rfl
  | cons e m ih =>
    rw [MemMap.erase_cons]
    by_cases h : e.1 = a
    · rw [if_pos h, ih]; simp [MemMap.keys, List.filter_cons, h]
    · rw [if_neg h]
      have : MemMap.keys (e :: MemMap.erase m a) = e.1 :: MemMap.keys (MemMap.erase m a) := rfl
      rw [this, ih]; simp [MemMap.keys, List.filter_cons, h]

theorem MemMap.keys_assign (m : MemMap) (a : Nat) (v : MemInfoItem) :
    MemMap.keys (MemMap.assign m a v) = a :: (MemMap.keys m).filter (fun k => k != a) := by
  have : MemMap.keys (MemMap.assign m a v) = a :: MemMap.keys (MemMap.erase m a) := rfl
  rw [this, MemMap.keys_erase]

theorem MemMap.nodup_keys_assign (m : MemMap) (a : Nat) (v : MemInfoItem)
    (h : (MemMap.keys m).Nodup) : (MemMap.keys (MemMap.assign m a v)).Nodup := by
  rw [MemMap.keys_assign]
  refine List.nodup_cons.mpr ⟨?_, h.filter _⟩
  simp [List.mem_filter]

theorem MemMap.mem_keys_assign (m : MemMap) (a b : Nat) (v : MemInfoItem) :
    b ∈ MemMap.keys (MemMap.assign m a v) ↔ b = a ∨ b ∈ MemMap.keys m := by
  rw [MemMap.keys_assign]
  by_cases h : b = a <;> simp [List.mem_filter, h]


/-! ## Lemmas on the wrappers -/

theorem TRACE_ENABLED_of_suppressed (g_backtrace : Option BacktracePtr) (g : Globals)
    (h : g.g_backtraceGuard = TLS_MARKER_TRUE) : TRACE_ENABLED g_backtrace g = false := by
  simp [TRACE_ENABLED, h, TLS_MARKER_TRUE, TLS_MARKER_FALSE]

theorem TRACE_ENABLED_none (g : Globals) : TRACE_ENABLED none g = false := by
  simp [TRACE_ENABLED]

theorem TRACE_ENABLED_iff (g_backtrace : Option BacktracePtr) (g : Globals) :
    TRACE_ENABLED g_backtrace g = true ↔
      g.g_areWeInMain = true ∧ g_backtrace.isSome = true ∧
        g.g_backtraceGuard = TLS_MARKER_FALSE := by
  simp [TRACE_ENABLED, and_assoc]

theorem MemMap.erase_assign_self (m : MemMap) (a : Nat) (v : MemInfoItem) :
    MemMap.erase (MemMap.assign m a v) a = MemMap.erase m a := by
  have h : MemMap.erase (MemMap.erase m a) a = MemMap.erase m a :=
    MemMap.erase_of_find_none _ (MemMap.find_erase_self m a)
  rw [MemMap.assign, MemMap.erase_cons, if_pos rfl, h]

theorem MemMap.find_erase_none (m : MemMap) {a : Nat} (b : Nat)
    (h : MemMap.find m a = none) : MemMap.find (MemMap.erase m b) a = none := by
  by_cases hab : a = b
  · rw [hab]; exact MemMap.find_erase_self m b
  · rw [MemMap.find_erase_of_ne m hab]; exact h

/-- When `TRACE_ENABLED` is false the allocating wrappers return the globals as they got
them. -/
theorem WrapMalloc_of_not_enabled (g_backtrace : Option BacktracePtr) (g : Globals)
    (realMalloc : Nat → Nat) (arg0 : Nat) (h : TRACE_ENABLED g_backtrace g = false) :
    WrapMalloc g_backtrace g realMalloc arg0 = (realMalloc arg0, g) := by
  simp [WrapMalloc, h]

theorem WrapCalloc_of_not_enabled (g_backtrace : Option BacktracePtr) (g : Globals)
    (realCalloc : Nat → Nat → Nat) (arg0 arg1 : Nat) (h : TRACE_ENABLED g_backtrace g = false) :
    WrapCalloc g_backtrace g realCalloc arg0 arg1 = (realCalloc arg0 arg1, g) := by
  simp [WrapCalloc, h]

theorem WrapRealloc_of_not_enabled (g_backtrace : Option BacktracePtr) (g : Globals)
    (realRealloc : Nat → Nat → Nat) (arg0 arg1 : Nat) (h : TRACE_ENABLED g_backtrace g = false) :
    WrapRealloc g_backtrace g realRealloc arg0 arg1 = (realRealloc arg0 arg1, g) := by
  simp [WrapRealloc, h]

/-- With tracking enabled and an unwinder that is quiet under a suppressed guard, `WrapMalloc`
changes the globals by one `CountMalloc` and nothing else. -/
theorem WrapMalloc_of_enabled (backtrace : BacktracePtr) (g : Globals)
    (realMalloc : Nat → Nat) (arg0 : Nat) (hq : QuietWhenSuppressed backtrace)
    (h : TRACE_ENABLED (some backtrace) g = true) :
    WrapMalloc (some backtrace) g realMalloc arg0 =
      (realMalloc arg0,
        { g with
          g_stats := (g.g_stats.CountMalloc (realMalloc arg0) arg0
            (GetStackFrame (some backtrace) { g with g_backtraceGuard := TLS_MARKER_TRUE }).1) }) := by
  have hg := ((TRACE_ENABLED_iff _ _).mp h).2.2
  have hb : (backtrace FRAMES_NUM_REQUIRED { g with g_backtraceGuard := TLS_MARKER_TRUE }).2
      = { g with g_backtraceGuard := TLS_MARKER_TRUE } := hq _ _ rfl
  simp only [WrapMalloc, h, if_true, GetStackFrame, hb]
  cases g
  simp_all

/-- With tracking enabled, `WrapCalloc` calls the unwinder on the globals as it got them, guard
not suppressed, and then makes one `CountCalloc` on the store the unwinder left. -/
theorem WrapCalloc_of_enabled (backtrace : BacktracePtr) (g : Globals)
    (realCalloc : Nat → Nat → Nat) (arg0 arg1 : Nat)
    (h : TRACE_ENABLED (some backtrace) g = true) :
    WrapCalloc (some backtrace) g realCalloc arg0 arg1 =
      (realCalloc arg0 arg1,
        { (backtrace FRAMES_NUM_REQUIRED g).2 with
          g_stats := ((backtrace FRAMES_NUM_REQUIRED g).2.g_stats.CountCalloc
            (realCalloc arg0 arg1) ((arg0 * arg1) % UINT64_MOD)
            (GetStackFrame (some backtrace) g).1) }) := by
  simp [WrapCalloc, h, GetStackFrame]

/-- With tracking enabled, `WrapRealloc` calls the unwinder on the globals as it got them,
guard not suppressed, and then makes one `CountRealloc` on the store the unwinder left. -/
theorem WrapRealloc_of_enabled (backtrace : BacktracePtr) (g : Globals)
    (realRealloc : Nat → Nat → Nat) (arg0 arg1 : Nat)
    (h : TRACE_ENABLED (some backtrace) g = true) :
    WrapRealloc (some backtrace) g realRealloc arg0 arg1 =
      (realRealloc arg0 arg1,
        { (backtrace FRAMES_NUM_REQUIRED g).2 with
          g_stats := ((backtrace FRAMES_NUM_REQUIRED g).2.g_stats.CountRealloc
            (realRealloc arg0 arg1) arg1 (GetStackFrame (some backtrace) g).1) }) := by
  simp [WrapRealloc, h, GetStackFrame]

/-- Whatever the state, `WrapMalloc` followed by `WrapFree` of the returned block leaves the
live map as one `erase` of that address leaves it, when the unwinder is quiet under a
suppressed guard. -/
theorem memMap_WrapFree_WrapMalloc (g_backtrace : Option BacktracePtr) (g : Globals)
    (realMalloc : Nat → Nat) (realFree : Nat → Unit) (arg0 : Nat)
    (hq : ∀ backtrace, g_backtrace = some backtrace → QuietWhenSuppressed backtrace) :
    (WrapFree (WrapMalloc g_backtrace g realMalloc arg0).2 realFree
        (WrapMalloc g_backtrace g realMalloc arg0).1).g_stats.memMap
      = MemMap.erase g.g_stats.memMap (realMalloc arg0) := by
  cases hte : TRACE_ENABLED g_backtrace g with
  | false =>
    rw [WrapMalloc_of_not_enabled _ _ _ _ hte]
    rfl
  | true =>
    cases g_backtrace with
    | none => simp [TRACE_ENABLED] at hte
    | some backtrace =>
      rw [WrapMalloc_of_enabled backtrace g realMalloc arg0 (hq backtrace rfl) hte]
      simp only [WrapFree, Statistics.CountFree, Statistics.CountMalloc]
      exact MemMap.erase_assign_self _ _ _

/-! ## C2: deallocate -/

theorem performerLoop_succ (g_backtrace : Option BacktracePtr) (realMalloc : Nat → Nat → Nat)
    (realFree : Nat → Unit) (n : Nat) (g : Globals) :
    performerLoop g_backtrace realMalloc realFree (n + 1) g =
      WrapFree
        (WrapMalloc g_backtrace (performerLoop g_backtrace realMalloc realFree n g)
          (realMalloc n) 4).2
        realFree
        (WrapMalloc g_backtrace (performerLoop g_backtrace realMalloc realFree n g)
          (realMalloc n) 4).1 := by
  simp [performerLoop, List.range_succ, List.foldl_append]

/-- After the performer loop no block it allocated is in the live map, and an empty map
stays empty. -/
theorem performerLoop_memMap (g_backtrace : Option BacktracePtr) (realMalloc : Nat → Nat → Nat)
    (realFree : Nat → Unit) (g : Globals)
    (hq : ∀ backtrace, g_backtrace = some backtrace → QuietWhenSuppressed backtrace) (n : Nat) :
    (∀ i, i < n →
      MemMap.find (performerLoop g_backtrace realMalloc realFree n g).g_stats.memMap
        (realMalloc i 4) = none) ∧
    (g.g_stats.memMap = [] →
      (performerLoop g_backtrace realMalloc realFree n g).g_stats.memMap = []) := by
  induction n with
  | zero =>
    refine ⟨fun i hi => absurd hi (Nat.not_lt_zero i), fun h => ?_⟩
    simpa [performerLoop] using h
  | succ n ih =>
    rw [performerLoop_succ, memMap_WrapFree_WrapMalloc _ _ _ _ _ hq]
    refine ⟨fun i hi => ?_, fun h => ?_⟩
    · rcases Nat.lt_succ_iff_lt_or_eq.mp hi with hlt | heq
      · exact MemMap.find_erase_none _ _ (ih.1 i hlt)
      · rw [heq]; exact MemMap.find_erase_self _ _
    · rw [ih.2 h]; rfl

/-- C2. For every state and every address `a`, after `WrapFree` of `a`: `a` is absent from the
live map, the record of every other address is unchanged, and the six counters are unchanged.
So `WrapMalloc` returning `a` followed by `WrapFree` of `a` leaves `a` absent; the performer
loop of `cycles_num` allocate-then-free turns (with an unwinder that is quiet under a
suppressed guard) leaves none of its blocks in the map and leaves an empty map empty; and
`WrapFree` of an address that has no record leaves the whole store unchanged. -/
theorem WrapFree_removes_exactly_its_address (g : Globals) (realFree : Nat → Unit) (a : Nat) :
    MemMap.find (WrapFree g realFree a).g_stats.memMap a = none ∧
    (∀ b, b ≠ a →
      MemMap.find (WrapFree g realFree a).g_stats.memMap b = MemMap.find g.g_stats.memMap b) ∧
    ((WrapFree g realFree a).g_stats.GetMallocCount = g.g_stats.GetMallocCount ∧
      (WrapFree g realFree a).g_stats.GetCallocCount = g.g_stats.GetCallocCount ∧
      (WrapFree g realFree a).g_stats.GetReallocCount = g.g_stats.GetReallocCount ∧
      (WrapFree g realFree a).g_stats.GetMallocedBytes = g.g_stats.GetMallocedBytes ∧
      (WrapFree g realFree a).g_stats.GetCallocedBytes = g.g_stats.GetCallocedBytes ∧
      (WrapFree g realFree a).g_stats.GetReallocedBytes = g.g_stats.GetReallocedBytes) ∧
    (∀ (g_backtrace : Option BacktracePtr) (realMalloc : Nat → Nat) (size : Nat),
      realMalloc size = a →
      MemMap.find
        (WrapFree (WrapMalloc g_backtrace g realMalloc size).2 realFree a).g_stats.memMap a
        = none) ∧
    (∀ (g_backtrace : Option BacktracePtr) (realMalloc : Nat → Nat → Nat) (cycles_num : Nat),
      (∀ backtrace, g_backtrace = some backtrace → QuietWhenSuppressed backtrace) →
      (∀ i, i < cycles_num →
        MemMap.find (performerLoop g_backtrace realMalloc realFree cycles_num g).g_stats.memMap
          (realMalloc i 4) = none) ∧
      (g.g_stats.memMap = [] →
        (performerLoop g_backtrace realMalloc realFree cycles_num g).g_stats.GetMemoryMapClone
          = [])) ∧
    (MemMap.find g.g_stats.memMap a = none → WrapFree g realFree a = g) := by
  refine ⟨MemMap.find_erase_self _ _, fun b hb => MemMap.find_erase_of_ne _ hb,
    ⟨rfl, rfl, rfl, rfl, rfl, rfl⟩, fun _ _ _ _ => MemMap.find_erase_self _ _,
    fun g_backtrace realMalloc n hq => ?_, fun h => ?_⟩
  · exact performerLoop_memMap g_backtrace realMalloc realFree g hq n
  · have h' := MemMap.erase_of_find_none _ h
    cases g with
    | mk s m t =>
      cases s
      simp only [WrapFree, Statistics.CountFree] at h' ⊢
      simp [h']

/-- C2, at a concrete store: blocks at 4096 and 8192 are recorded, 4096 is freed. -/
theorem WrapFree_removes_exactly_its_address_witness :
    MemMap.find
      (WrapFree
        { g_stats := { Statistics.init with
            memMap := [(4096, { size := 16, retAddr := 7 }), (8192, { size := 32, retAddr := 9 })] },
          g_areWeInMain := true, g_backtraceGuard := TLS_MARKER_FALSE }
        (fun _ => ()) 4096).g_stats.memMap 8192 = some { size := 32, retAddr := 9 } ∧
    (performerLoop (some (quietBacktrace [1, 2, 3, 4])) (fun i _ => 4096 + 16 * i) (fun _ => ()) 3
        { g_stats := Statistics.init, g_areWeInMain := true,
          g_backtraceGuard := TLS_MARKER_FALSE }).g_stats.GetMemoryMapClone = [] := by
  refine ⟨?_, ?_⟩
  · rw [(WrapFree_removes_exactly_its_address _ (fun _ => ()) 4096).2.1 8192 (by decide)]
    decide
  · exact ((WrapFree_removes_exactly_its_address
      { g_stats := Statistics.init, g_areWeInMain := true,
        g_backtraceGuard := TLS_MARKER_FALSE } (fun _ => ()) 0).2.2.2.2.1
      (some (quietBacktrace [1, 2, 3, 4])) (fun i _ => 4096 + 16 * i) 3
      (fun backtrace hb size g _ => by cases hb; rfl)).2 rfl

/-! ## C4: the suppressed guard -/

/-- C4, as stated, fails for deallocate: with the guard suppressed, `WrapFree` of a recorded
address still removes its record, so the live map is not what it was before the call. -/
theorem WrapFree_ignores_guard_counterexample :
    ({ g_stats := { Statistics.init with memMap := [(4096, { size := 16, retAddr := 7 })] },
       g_areWeInMain := true, g_backtraceGuard := TLS_MARKER_TRUE } : Globals).g_backtraceGuard
      = TLS_MARKER_TRUE ∧
    (WrapFree
      { g_stats := { Statistics.init with memMap := [(4096, { size := 16, retAddr := 7 })] },
        g_areWeInMain := true, g_backtraceGuard := TLS_MARKER_TRUE }
      (fun _ => ()) 4096).g_stats.GetMemoryMapClone = [] ∧
    (WrapFree
      { g_stats := { Statistics.init with memMap := [(4096, { size := 16, retAddr := 7 })] },
        g_areWeInMain := true, g_backtraceGuard := TLS_MARKER_TRUE }
      (fun _ => ()) 4096).g_stats.GetMemoryMapClone
      ≠ (Statistics.GetMemoryMapClone
          { Statistics.init with memMap := [(4096, { size := 16, retAddr := 7 })] }) := by
  decide

/-- C4, amended. If the guard of the calling thread is suppressed when the wrapper is invoked,
then `WrapMalloc`, `WrapCalloc` and `WrapRealloc`, with any arguments, return the result of
the real function and leave the globals (the six counters, the live map, the guard itself)
exactly as they were.  `WrapFree` does not test the guard: it leaves the six counters as they
were and removes its argument from the live map. -/
theorem suppressed_guard_blocks_allocating_wrappers (g_backtrace : Option BacktracePtr)
    (g : Globals) (hsuppressed : g.g_backtraceGuard = TLS_MARKER_TRUE)
    (realMalloc : Nat → Nat) (realCalloc realRealloc : Nat → Nat → Nat) (realFree : Nat → Unit)
    (arg0 arg1 : Nat) :
    WrapMalloc g_backtrace g realMalloc arg0 = (realMalloc arg0, g) ∧
    WrapCalloc g_backtrace g realCalloc arg0 arg1 = (realCalloc arg0 arg1, g) ∧
    WrapRealloc g_backtrace g realRealloc arg0 arg1 = (realRealloc arg0 arg1, g) ∧
    (WrapFree g realFree arg0).g_stats.GetMallocCount = g.g_stats.GetMallocCount ∧
    (WrapFree g realFree arg0).g_stats.GetCallocCount = g.g_stats.GetCallocCount ∧
    (WrapFree g realFree arg0).g_stats.GetReallocCount = g.g_stats.GetReallocCount ∧
    (WrapFree g realFree arg0).g_stats.GetMallocedBytes = g.g_stats.GetMallocedBytes ∧
    (WrapFree g realFree arg0).g_stats.GetCallocedBytes = g.g_stats.GetCallocedBytes ∧
    (WrapFree g realFree arg0).g_stats.GetReallocedBytes = g.g_stats.GetReallocedBytes ∧
    (WrapFree g realFree arg0).g_stats.GetMemoryMapClone
      = MemMap.erase g.g_stats.GetMemoryMapClone arg0 := by
  have h := TRACE_ENABLED_of_suppressed g_backtrace g hsuppressed
  exact ⟨WrapMalloc_of_not_enabled _ _ _ _ h, WrapCalloc_of_not_enabled _ _ _ _ _ h,
    WrapRealloc_of_not_enabled _ _ _ _ _ h, rfl, rfl, rfl, rfl, rfl, rfl, rfl⟩

/-- C4, amended, at a concrete store with the guard suppressed and a resolved unwinder. -/
theorem suppressed_guard_blocks_allocating_wrappers_witness :
    WrapMalloc (some (quietBacktrace [1, 2, 3, 4]))
        { g_stats := { Statistics.init with memMap := [(4096, { size := 16, retAddr := 7 })] },
          g_areWeInMain := true, g_backtraceGuard := TLS_MARKER_TRUE }
        (fun _ => 8192) 64
      = (8192,
        { g_stats := { Statistics.init with memMap := [(4096, { size := 16, retAddr := 7 })] },
          g_areWeInMain := true, g_backtraceGuard := TLS_MARKER_TRUE }) :=
  (suppressed_guard_blocks_allocating_wrappers (some (quietBacktrace [1, 2, 3, 4]))
    { g_stats := { Statistics.init with memMap := [(4096, { size := 16, retAddr := 7 })] },
      g_areWeInMain := true, g_backtraceGuard := TLS_MARKER_TRUE }
    rfl (fun _ => 8192) (fun _ _ => 0) (fun _ _ => 0) (fun _ => ()) 64 0).1

/-! ## C6: the unresolved unwinder -/

/-- C6, as stated, fails: with `g_backtrace` null, the program in `main` and the guard not
suppressed, `WrapMalloc`, `WrapCalloc` and `WrapRealloc` update no counter and record no
address. -/
theorem unresolved_unwinder_counterexample :
    (WrapMalloc none
      { g_stats := Statistics.init, g_areWeInMain := true, g_backtraceGuard := TLS_MARKER_FALSE }
      (fun _ => 4096) 64).2.g_stats.GetMallocCount = 0 ∧
    (WrapMalloc none
      { g_stats := Statistics.init, g_areWeInMain := true, g_backtraceGuard := TLS_MARKER_FALSE }
      (fun _ => 4096) 64).2.g_stats.GetMallocedBytes = 0 ∧
    MemMap.find (WrapMalloc none
      { g_stats := Statistics.init, g_areWeInMain := true, g_backtraceGuard := TLS_MARKER_FALSE }
      (fun _ => 4096) 64).2.g_stats.GetMemoryMapClone 4096 = none ∧
    (WrapCalloc none
      { g_stats := Statistics.init, g_areWeInMain := true, g_backtraceGuard := TLS_MARKER_FALSE }
      (fun _ _ => 4096) 8 8).2.g_stats.GetCallocCount = 0 ∧
    MemMap.find (WrapCalloc none
      { g_stats := Statistics.init, g_areWeInMain := true, g_backtraceGuard := TLS_MARKER_FALSE }
      (fun _ _ => 4096) 8 8).2.g_stats.GetMemoryMapClone 4096 = none ∧
    (WrapRealloc none
      { g_stats := Statistics.init, g_areWeInMain := true, g_backtraceGuard := TLS_MARKER_FALSE }
      (fun _ _ => 4096) 0 64).2.g_stats.GetReallocCount = 0 ∧
    MemMap.find (WrapRealloc none
      { g_stats := Statistics.init, g_areWeInMain := true, g_backtraceGuard := TLS_MARKER_FALSE }
      (fun _ _ => 4096) 0 64).2.g_stats.GetMemoryMapClone 4096 = none := by
  decide

/-- C6, amended. When `g_backtrace` is null, `TRACE_ENABLED` is false whatever the other
globals are, and every `WrapMalloc`, `WrapCalloc` and `WrapRealloc` call returns the result of
the real function and leaves the six counters and the live map exactly as they were: nothing
is counted and no address is recorded. -/
theorem unresolved_unwinder_disables_tracking (g : Globals)
    (realMalloc : Nat → Nat) (realCalloc realRealloc : Nat → Nat → Nat) (arg0 arg1 : Nat) :
    TRACE_ENABLED none g = false ∧
    WrapMalloc none g realMalloc arg0 = (realMalloc arg0, g) ∧
    WrapCalloc none g realCalloc arg0 arg1 = (realCalloc arg0 arg1, g) ∧
    WrapRealloc none g realRealloc arg0 arg1 = (realRealloc arg0 arg1, g) :=
  ⟨TRACE_ENABLED_none g, WrapMalloc_of_not_enabled _ _ _ _ (TRACE_ENABLED_none g),
    WrapCalloc_of_not_enabled _ _ _ _ _ (TRACE_ENABLED_none g),
    WrapRealloc_of_not_enabled _ _ _ _ _ (TRACE_ENABLED_none g)⟩

/-! ## C8: the counters under overflow -/

/-- C8, as stated, fails: two `CountMalloc` calls of `2^63` bytes each (two `malloc` requests
that the allocator refuses, both recorded under the null address) take `mallocedBytes` from
`2^63` down to `0`; and a `CountMalloc` on a store whose `mallocCount` is `2^32 - 1` takes
the count down to `0`. -/
theorem counters_not_monotone_counterexample :
    ((Statistics.init.CountMalloc 0 (2 ^ 63) 0).CountMalloc 0 (2 ^ 63) 0).GetMallocedBytes
      < (Statistics.init.CountMalloc 0 (2 ^ 63) 0).GetMallocedBytes ∧
    (Statistics.CountMalloc { Statistics.init with mallocCount := 2 ^ 32 - 1 } 4096 16 0).GetMallocCount
      < (Statistics.GetMallocCount { Statistics.init with mallocCount := 2 ^ 32 - 1 }) := by
  decide

theorem countersLE_refl (s : Statistics) : countersLE s s :=
  ⟨le_rfl, le_rfl, le_rfl, le_rfl, le_rfl, le_rfl⟩

theorem countersLE_trans {s t u : Statistics} (h1 : countersLE s t) (h2 : countersLE t u) :
    countersLE s u :=
  ⟨h1.1.trans h2.1, h1.2.1.trans h2.2.1, h1.2.2.1.trans h2.2.2.1,
    h1.2.2.2.1.trans h2.2.2.2.1, h1.2.2.2.2.1.trans h2.2.2.2.2.1,
    h1.2.2.2.2.2.trans h2.2.2.2.2.2⟩

theorem countersLE_run (s : Statistics) (op : StoreOp) (h : StoreOp.overflows s op = false) :
    countersLE s (StoreOp.run s op) := by
  cases op with
  | CountFree memAddr => exact countersLE_refl s
  | CountMalloc memAddr memSize retAddr =>
    simp only [StoreOp.overflows, Bool.or_eq_false_iff, decide_eq_false_iff_not, not_le] at h
    refine ⟨?_, le_rfl, le_rfl, ?_, le_rfl, le_rfl⟩
    · show s.mallocCount ≤ (s.mallocCount + 1) % UINT32_MOD
      rw [Nat.mod_eq_of_lt h.1]; exact Nat.le_succ _
    · show s.mallocedBytes ≤ (s.mallocedBytes + memSize) % UINT64_MOD
      rw [Nat.mod_eq_of_lt h.2]; exact Nat.le_add_right _ _
  | CountCalloc memAddr memSize retAddr =>
    simp only [StoreOp.overflows, Bool.or_eq_false_iff, decide_eq_false_iff_not, not_le] at h
    refine ⟨le_rfl, ?_, le_rfl, le_rfl, ?_, le_rfl⟩
    · show s.callocCount ≤ (s.callocCount + 1) % UINT32_MOD
      rw [Nat.mod_eq_of_lt h.1]; exact Nat.le_succ _
    · show s.callocedBytes ≤ (s.callocedBytes + memSize) % UINT64_MOD
      rw [Nat.mod_eq_of_lt h.2]; exact Nat.le_add_right _ _
  | CountRealloc memAddr memSize retAddr =>
    simp only [StoreOp.overflows, Bool.or_eq_false_iff, decide_eq_false_iff_not, not_le] at h
    refine ⟨le_rfl, le_rfl, ?_, le_rfl, le_rfl, ?_⟩
    · show s.reallocCount ≤ (s.reallocCount + 1) % UINT32_MOD
      rw [Nat.mod_eq_of_lt h.1]; exact Nat.le_succ _
    · show s.reallocedBytes ≤ (s.reallocedBytes + memSize) % UINT64_MOD
      rw [Nat.mod_eq_of_lt h.2]; exact Nat.le_add_right _ _

theorem countersLE_runOps (ops : List StoreOp) (s : Statistics)
    (h : neverOverflows s ops = true) : countersLE s (runOps s ops) := by
  induction ops generalizing s with
  | nil => exact countersLE_refl s
  | cons op ops ih =>
    simp only [neverOverflows, Bool.and_eq_true, Bool.not_eq_true'] at h
    exact countersLE_trans (countersLE_run s op h.1) (ih _ h.2)

/-- C8, amended. For every store state and every call of `CountMalloc`, `CountCalloc`,
`CountRealloc` or `CountFree`: the call sets the count of its own category to
`(count + 1) mod 2^32` and its total to `(total + memSize) mod 2^64` and leaves the counters
of the other categories as they were (`CountFree` leaves all six); so each of the six counters
after the call is at least its value before whenever the call does not overflow, and along
every sequence of calls none of which overflows. -/
theorem counters_monotone_unless_overflow (s : Statistics) (op : StoreOp) (ops : List StoreOp)
    (memAddr memSize retAddr : Nat) :
    (StoreOp.overflows s op = false → countersLE s (StoreOp.run s op)) ∧
    (neverOverflows s ops = true → countersLE s (runOps s ops)) ∧
    ((s.CountMalloc memAddr memSize retAddr).GetMallocCount
        = (s.GetMallocCount + 1) % 2 ^ 32 ∧
      (s.CountMalloc memAddr memSize retAddr).GetMallocedBytes
        = (s.GetMallocedBytes + memSize) % 2 ^ 64 ∧
      (s.CountMalloc memAddr memSize retAddr).GetCallocCount = s.GetCallocCount ∧
      (s.CountMalloc memAddr memSize retAddr).GetCallocedBytes = s.GetCallocedBytes ∧
      (s.CountMalloc memAddr memSize retAddr).GetReallocCount = s.GetReallocCount ∧
      (s.CountMalloc memAddr memSize retAddr).GetReallocedBytes = s.GetReallocedBytes) ∧
    ((s.CountCalloc memAddr memSize retAddr).GetCallocCount
        = (s.GetCallocCount + 1) % 2 ^ 32 ∧
      (s.CountCalloc memAddr memSize retAddr).GetCallocedBytes
        = (s.GetCallocedBytes + memSize) % 2 ^ 64 ∧
      (s.CountCalloc memAddr memSize retAddr).GetMallocCount = s.GetMallocCount ∧
      (s.CountCalloc memAddr memSize retAddr).GetMallocedBytes = s.GetMallocedBytes ∧
      (s.CountCalloc memAddr memSize retAddr).GetReallocCount = s.GetReallocCount ∧
      (s.CountCalloc memAddr memSize retAddr).GetReallocedBytes = s.GetReallocedBytes) ∧
    ((s.CountRealloc memAddr memSize retAddr).GetReallocCount
        = (s.GetReallocCount + 1) % 2 ^ 32 ∧
      (s.CountRealloc memAddr memSize retAddr).GetReallocedBytes
        = (s.GetReallocedBytes + memSize) % 2 ^ 64 ∧
      (s.CountRealloc memAddr memSize retAddr).GetMallocCount = s.GetMallocCount ∧
      (s.CountRealloc memAddr memSize retAddr).GetMallocedBytes = s.GetMallocedBytes ∧
      (s.CountRealloc memAddr memSize retAddr).GetCallocCount = s.GetCallocCount ∧
      (s.CountRealloc memAddr memSize retAddr).GetCallocedBytes = s.GetCallocedBytes) ∧
    countersLE s (s.CountFree memAddr) ∧ countersLE (s.CountFree memAddr) s :=
  ⟨countersLE_run s op, countersLE_runOps ops s,
    ⟨rfl, rfl, rfl, rfl, rfl, rfl⟩, ⟨rfl, rfl, rfl, rfl, rfl, rfl⟩, ⟨rfl, rfl, rfl, rfl, rfl, rfl⟩,
    countersLE_refl s, countersLE_refl s⟩

/-- C8, amended, on a run of four calls from the fresh store. -/
theorem counters_monotone_unless_overflow_witness :
    countersLE (Statistics.init.CountMalloc 4096 16 7)
      (runOps (Statistics.init.CountMalloc 4096 16 7)
        [StoreOp.CountCalloc 8192 32 9, StoreOp.CountFree 4096, StoreOp.CountRealloc 8192 0 3]) :=
  (counters_monotone_unless_overflow (Statistics.init.CountMalloc 4096 16 7)
    (StoreOp.CountFree 0)
    [StoreOp.CountCalloc 8192 32 9, StoreOp.CountFree 4096, StoreOp.CountRealloc 8192 0 3]
    0 0 0).2.1 (by decide)

/-! ## C1: a run of allocate calls -/

theorem allocateRun_cons (g_backtrace : Option BacktracePtr) (g : Globals)
    (c : (Nat → Nat) × Nat) (calls : List ((Nat → Nat) × Nat)) :
    allocateRun g_backtrace g (c :: calls)
      = allocateRun g_backtrace (WrapMalloc g_backtrace g c.1 c.2).2 calls := rfl

/-- What a run of allocate calls with tracking enabled leaves in the store. -/
theorem allocateRun_spec (backtrace : BacktracePtr) (hq : QuietWhenSuppressed backtrace)
    (calls : List ((Nat → Nat) × Nat)) (g : Globals)
    (h : TRACE_ENABLED (some backtrace) g = true)
    (hc : g.g_stats.mallocCount < UINT32_MOD) (hb : g.g_stats.mallocedBytes < UINT64_MOD)
    (hn : (MemMap.keys g.g_stats.memMap).Nodup) :
    (allocateRun (some backtrace) g calls).g_stats.mallocCount
      = (g.g_stats.mallocCount + calls.length) % UINT32_MOD ∧
    (allocateRun (some backtrace) g calls).g_stats.mallocedBytes
      = (g.g_stats.mallocedBytes + (calls.map Prod.snd).sum) % UINT64_MOD ∧
    (MemMap.keys (allocateRun (some backtrace) g calls).g_stats.memMap).Nodup ∧
    (∀ k, k ∈ MemMap.keys (allocateRun (some backtrace) g calls).g_stats.memMap ↔
      k ∈ MemMap.keys g.g_stats.memMap ∨ k ∈ returnedAddresses calls) := by
  induction calls generalizing g with
  | nil =>
    refine ⟨?_, ?_, hn, fun k => ?_⟩
    · simp [allocateRun, Nat.mod_eq_of_lt hc]
    · simp [allocateRun, Nat.mod_eq_of_lt hb]
    · simp [allocateRun, returnedAddresses]
  | cons c calls ih =>
    rw [allocateRun_cons, WrapMalloc_of_enabled backtrace g c.1 c.2 hq h]
    have h' : TRACE_ENABLED (some backtrace)
        { g with
          g_stats := (g.g_stats.CountMalloc (c.1 c.2) c.2
            (GetStackFrame (some backtrace) { g with g_backtraceGuard := TLS_MARKER_TRUE }).1) }
        = true := h
    obtain ⟨i1, i2, i3, i4⟩ := ih _ h' (Nat.mod_lt _ (by decide)) (Nat.mod_lt _ (by decide))
      (MemMap.nodup_keys_assign _ _ _ hn)
    refine ⟨?_, ?_, i3, fun k => ?_⟩
    · rw [i1]
      show ((g.g_stats.mallocCount + 1) % UINT32_MOD + calls.length) % UINT32_MOD = _
      rw [List.length_cons, Nat.mod_add_mod, Nat.add_assoc, Nat.add_comm 1]
    · rw [i2]
      show ((g.g_stats.mallocedBytes + c.2) % UINT64_MOD + _) % UINT64_MOD = _
      rw [List.map_cons, List.sum_cons, Nat.mod_add_mod, Nat.add_assoc]
    · rw [i4]
      show k ∈ MemMap.keys (MemMap.assign g.g_stats.memMap (c.1 c.2) _) ∨ _ ↔ _
      rw [MemMap.mem_keys_assign]
      simp only [returnedAddresses, List.map_cons, List.mem_cons]
      tauto

/-- C1. From a freshly constructed store with tracking active (program in `main`, unwinder
resolved, guard not suppressed), after any run of `N` `WrapMalloc` calls with sizes `s1..sN`
returning `a1..aN`, no deallocate being made in between (the unwinder makes none either: it is
quiet under the suppressed guard): `GetMallocCount` is `N` as a `UINT32`, that is `N mod 2^32`,
`GetMallocedBytes` is `s1 + ... + sN` as a `UINT64`, that is the sum `mod 2^64`, and the map
returned by `GetMemoryMapClone` has as many entries as there are distinct addresses among
`a1..aN`. -/
theorem allocateRun_counts_and_live_map (backtrace : BacktracePtr)
    (hq : QuietWhenSuppressed backtrace) (calls : List ((Nat → Nat) × Nat)) :
    (allocateRun (some backtrace)
        { g_stats := Statistics.init, g_areWeInMain := true,
          g_backtraceGuard := TLS_MARKER_FALSE } calls).g_stats.GetMallocCount
      = calls.length % 2 ^ 32 ∧
    (allocateRun (some backtrace)
        { g_stats := Statistics.init, g_areWeInMain := true,
          g_backtraceGuard := TLS_MARKER_FALSE } calls).g_stats.GetMallocedBytes
      = (calls.map Prod.snd).sum % 2 ^ 64 ∧
    (allocateRun (some backtrace)
        { g_stats := Statistics.init, g_areWeInMain := true,
          g_backtraceGuard := TLS_MARKER_FALSE } calls).g_stats.GetMemoryMapClone.length
      = (returnedAddresses calls).dedup.length := by
  obtain ⟨h1, h2, h3, h4⟩ := allocateRun_spec backtrace hq calls
    { g_stats := Statistics.init, g_areWeInMain := true, g_backtraceGuard := TLS_MARKER_FALSE }
    rfl (by decide) (by decide) List.nodup_nil
  refine ⟨?_, ?_, ?_⟩
  · show Statistics.mallocCount _ = _
    rw [h1]; simp [Statistics.init, UINT32_MOD]
  · show Statistics.mallocedBytes _ = _
    rw [h2]; simp [Statistics.init, UINT64_MOD]
  · have hp : List.Perm
        (MemMap.keys (allocateRun (some backtrace)
          { g_stats := Statistics.init, g_areWeInMain := true,
            g_backtraceGuard := TLS_MARKER_FALSE } calls).g_stats.memMap)
        (returnedAddresses calls).dedup := by
      refine (List.perm_ext_iff_of_nodup h3 (List.nodup_dedup _)).mpr (fun k => ?_)
      rw [h4, List.mem_dedup]
      simp [Statistics.init, MemMap.keys]
    have := hp.length_eq
    simpa [MemMap.keys, Statistics.GetMemoryMapClone] using this

/-- C1, on a run of three calls, the third returning the address of the first again. -/
theorem allocateRun_counts_and_live_map_witness :
    (allocateRun (some (quietBacktrace [1, 2, 3, 4]))
        { g_stats := Statistics.init, g_areWeInMain := true,
          g_backtraceGuard := TLS_MARKER_FALSE }
        [(fun _ => 4096, 16), (fun _ => 8192, 32), (fun _ => 4096, 8)]).g_stats.GetMallocCount
      = 3 ∧
    (allocateRun (some (quietBacktrace [1, 2, 3, 4]))
        { g_stats := Statistics.init, g_areWeInMain := true,
          g_backtraceGuard := TLS_MARKER_FALSE }
        [(fun _ => 4096, 16), (fun _ => 8192, 32), (fun _ => 4096, 8)]).g_stats.GetMallocedBytes
      = 56 ∧
    (allocateRun (some (quietBacktrace [1, 2, 3, 4]))
        { g_stats := Statistics.init, g_areWeInMain := true,
          g_backtraceGuard := TLS_MARKER_FALSE }
        [(fun _ => 4096, 16), (fun _ => 8192, 32),
          (fun _ => 4096, 8)]).g_stats.GetMemoryMapClone.length
      = 2 :=
  allocateRun_counts_and_live_map (quietBacktrace [1, 2, 3, 4]) (fun _ _ _ => rfl)
    [(fun _ => 4096, 16), (fun _ => 8192, 32), (fun _ => 4096, 8)]

/-! ## C5: reallocate to size zero -/

/-- C5, as stated, fails.  The store holds a record for the block at 4096, tracking is
active, `realloc(4096, 0)` returns null: after `WrapRealloc` the count is 1 and 4096 is still
a key of the live map, with its old record.  And on a store whose reallocate count is
`2^32 - 1` the same call leaves the count at 0: it has not increased. -/
theorem WrapRealloc_zero_keeps_record_counterexample :
    TRACE_ENABLED (some (quietBacktrace [1, 2, 3, 4]))
      { g_stats := { Statistics.init with memMap := [(4096, { size := 16, retAddr := 7 })] },
        g_areWeInMain := true, g_backtraceGuard := TLS_MARKER_FALSE } = true ∧
    (WrapRealloc (some (quietBacktrace [1, 2, 3, 4]))
      { g_stats := { Statistics.init with memMap := [(4096, { size := 16, retAddr := 7 })] },
        g_areWeInMain := true, g_backtraceGuard := TLS_MARKER_FALSE }
      (fun _ _ => 0) 4096 0).2.g_stats.GetReallocCount = 1 ∧
    4096 ∈ MemMap.keys (WrapRealloc (some (quietBacktrace [1, 2, 3, 4]))
      { g_stats := { Statistics.init with memMap := [(4096, { size := 16, retAddr := 7 })] },
        g_areWeInMain := true, g_backtraceGuard := TLS_MARKER_FALSE }
      (fun _ _ => 0) 4096 0).2.g_stats.GetMemoryMapClone ∧
    MemMap.find (WrapRealloc (some (quietBacktrace [1, 2, 3, 4]))
      { g_stats := { Statistics.init with memMap := [(4096, { size := 16, retAddr := 7 })] },
        g_areWeInMain := true, g_backtraceGuard := TLS_MARKER_FALSE }
      (fun _ _ => 0) 4096 0).2.g_stats.GetMemoryMapClone 4096
      = some { size := 16, retAddr := 7 } ∧
    (WrapRealloc (some (quietBacktrace [1, 2, 3, 4]))
      { g_stats := { Statistics.init with reallocCount := 2 ^ 32 - 1 },
        g_areWeInMain := true, g_backtraceGuard := TLS_MARKER_FALSE }
      (fun _ _ => 0) 4096 0).2.g_stats.GetReallocCount = 0 := by
  decide

/-- C5, amended. For every store state and every address `a`, after `WrapRealloc` of `a` with
new size 0 and tracking active (the unwinder leaving the store alone during the call): the
reallocate count is the old count plus one as a `UINT32`, the reallocate total is the old total
plus 0 as a `UINT64`, and the live map is exactly what it was; so `a` is a key of the live map
after the call if and only if it was one before: a record held for `a` stays. -/
theorem WrapRealloc_zero_leaves_live_map (backtrace : BacktracePtr) (g : Globals)
    (realRealloc : Nat → Nat → Nat) (a : Nat)
    (hactive : TRACE_ENABLED (some backtrace) g = true)
    (hquiet : (backtrace FRAMES_NUM_REQUIRED g).2.g_stats = g.g_stats) :
    (WrapRealloc (some backtrace) g realRealloc a 0).1 = realRealloc a 0 ∧
    (WrapRealloc (some backtrace) g realRealloc a 0).2.g_stats.GetReallocCount
      = (g.g_stats.GetReallocCount + 1) % 2 ^ 32 ∧
    (WrapRealloc (some backtrace) g realRealloc a 0).2.g_stats.GetReallocedBytes
      = (g.g_stats.GetReallocedBytes + 0) % 2 ^ 64 ∧
    (WrapRealloc (some backtrace) g realRealloc a 0).2.g_stats.GetMemoryMapClone
      = g.g_stats.GetMemoryMapClone ∧
    (a ∈ MemMap.keys (WrapRealloc (some backtrace) g realRealloc a 0).2.g_stats.GetMemoryMapClone
      ↔ a ∈ MemMap.keys g.g_stats.GetMemoryMapClone) := by
  have hmap : (WrapRealloc (some backtrace) g realRealloc a 0).2.g_stats.GetMemoryMapClone
      = g.g_stats.GetMemoryMapClone := by
    simp [WrapRealloc, hactive, GetStackFrame, Statistics.CountRealloc,
      Statistics.GetMemoryMapClone, hquiet]
  refine ⟨by simp [WrapRealloc, hactive], ?_, ?_, hmap, by rw [hmap]⟩
  · simp [WrapRealloc, hactive, GetStackFrame, Statistics.CountRealloc,
      Statistics.GetReallocCount, hquiet, UINT32_MOD]
  · simp [WrapRealloc, hactive, GetStackFrame, Statistics.CountRealloc,
      Statistics.GetReallocedBytes, hquiet, UINT64_MOD]

/-- C5, amended, at the store of the counterexample. -/
theorem WrapRealloc_zero_leaves_live_map_witness :
    (WrapRealloc (some (quietBacktrace [1, 2, 3, 4]))
      { g_stats := { Statistics.init with memMap := [(4096, { size := 16, retAddr := 7 })] },
        g_areWeInMain := true, g_backtraceGuard := TLS_MARKER_FALSE }
      (fun _ _ => 0) 4096 0).2.g_stats.GetMemoryMapClone
      = [(4096, { size := 16, retAddr := 7 })] :=
  (WrapRealloc_zero_leaves_live_map (quietBacktrace [1, 2, 3, 4])
    { g_stats := { Statistics.init with memMap := [(4096, { size := 16, retAddr := 7 })] },
      g_areWeInMain := true, g_backtraceGuard := TLS_MARKER_FALSE }
    (fun _ _ => 0) 4096 (by decide) rfl).2.2.2.1

/-! ## C9: zero-allocate -/

/-- C9, as stated, fails in its last part: on a store whose zero-allocate count is
`2^32 - 1`, with tracking active, `WrapCalloc(8, 8)` records the block with size 64 and adds
64 to the total, but leaves the count at 0: the count has not increased by one. -/
theorem WrapCalloc_count_wraps_counterexample :
    TRACE_ENABLED (some (quietBacktrace [1, 2, 3, 4]))
      { g_stats := { Statistics.init with callocCount := 2 ^ 32 - 1 },
        g_areWeInMain := true, g_backtraceGuard := TLS_MARKER_FALSE } = true ∧
    MemMap.find (WrapCalloc (some (quietBacktrace [1, 2, 3, 4]))
      { g_stats := { Statistics.init with callocCount := 2 ^ 32 - 1 },
        g_areWeInMain := true, g_backtraceGuard := TLS_MARKER_FALSE }
      (fun _ _ => 4096) 8 8).2.g_stats.GetMemoryMapClone 4096
      = some { size := 64, retAddr := 4 } ∧
    (WrapCalloc (some (quietBacktrace [1, 2, 3, 4]))
      { g_stats := { Statistics.init with callocCount := 2 ^ 32 - 1 },
        g_areWeInMain := true, g_backtraceGuard := TLS_MARKER_FALSE }
      (fun _ _ => 4096) 8 8).2.g_stats.GetCallocedBytes = 64 ∧
    (WrapCalloc (some (quietBacktrace [1, 2, 3, 4]))
      { g_stats := { Statistics.init with callocCount := 2 ^ 32 - 1 },
        g_areWeInMain := true, g_backtraceGuard := TLS_MARKER_FALSE }
      (fun _ _ => 4096) 8 8).2.g_stats.GetCallocCount = 0 ∧
    (Statistics.GetCallocCount { Statistics.init with callocCount := 2 ^ 32 - 1 }) + 1
      = 4294967296 := by
  decide

/-- C9, amended. For all `c` and `e`, after `WrapCalloc(c, e)` with tracking active returning
`p` (the unwinder itself leaving the zero-allocate counters alone): the live-map record for `p`
has size `(c * e) mod 2^64`, the zero-allocate total is the old total plus that value,
`mod 2^64`, and the zero-allocate count is the old count plus one `mod 2^32`, so plus one
exactly unless the old count is `2^32 - 1`.  Nothing is assumed on the size of `c * e`. -/
theorem WrapCalloc_records_truncated_product (backtrace : BacktracePtr) (g : Globals)
    (realCalloc : Nat → Nat → Nat) (c e : Nat)
    (hactive : TRACE_ENABLED (some backtrace) g = true)
    (hcount : (backtrace FRAMES_NUM_REQUIRED g).2.g_stats.callocCount = g.g_stats.callocCount)
    (hbytes :
      (backtrace FRAMES_NUM_REQUIRED g).2.g_stats.callocedBytes = g.g_stats.callocedBytes) :
    (WrapCalloc (some backtrace) g realCalloc c e).1 = realCalloc c e ∧
    (MemMap.find (WrapCalloc (some backtrace) g realCalloc c e).2.g_stats.GetMemoryMapClone
        (WrapCalloc (some backtrace) g realCalloc c e).1).map MemInfoItem.size
      = some ((c * e) % 2 ^ 64) ∧
    (WrapCalloc (some backtrace) g realCalloc c e).2.g_stats.GetCallocedBytes
      = (g.g_stats.GetCallocedBytes + (c * e) % 2 ^ 64) % 2 ^ 64 ∧
    (WrapCalloc (some backtrace) g realCalloc c e).2.g_stats.GetCallocCount
      = (g.g_stats.GetCallocCount + 1) % 2 ^ 32 ∧
    (g.g_stats.GetCallocCount + 1 < 2 ^ 32 →
      (WrapCalloc (some backtrace) g realCalloc c e).2.g_stats.GetCallocCount
        = g.g_stats.GetCallocCount + 1) := by
  have hcnt : (WrapCalloc (some backtrace) g realCalloc c e).2.g_stats.GetCallocCount
      = (g.g_stats.GetCallocCount + 1) % 2 ^ 32 := by
    simp [WrapCalloc, hactive, GetStackFrame, Statistics.CountCalloc,
      Statistics.GetCallocCount, hcount, UINT32_MOD]
  refine ⟨by simp [WrapCalloc, hactive], ?_, ?_, hcnt, fun h => ?_⟩
  · simp [WrapCalloc, hactive, GetStackFrame, Statistics.CountCalloc,
      Statistics.GetMemoryMapClone, MemMap.find_assign_self, UINT64_MOD]
  · simp [WrapCalloc, hactive, GetStackFrame, Statistics.CountCalloc,
      Statistics.GetCallocedBytes, hbytes, UINT64_MOD]
  · rw [hcnt, Nat.mod_eq_of_lt h]

/-- C9, amended, with a product above `2^64 - 1`: `c = 2^32`, `e = 2^32 + 1`, so `c * e = 2^64 + 2^32`
and the recorded size is `2^32`; the unwinder is one that itself calls `malloc`. -/
theorem WrapCalloc_records_truncated_product_witness :
    2 ^ 64 - 1 < 2 ^ 32 * (2 ^ 32 + 1) ∧
    MemMap.find
      (WrapCalloc (some (reentrantBacktrace [1, 2, 3, 4] 12288 24 1))
        { g_stats := Statistics.init, g_areWeInMain := true,
          g_backtraceGuard := TLS_MARKER_FALSE }
        (fun _ _ => 4096) (2 ^ 32) (2 ^ 32 + 1)).2.g_stats.GetMemoryMapClone 4096
      = some { size := 2 ^ 32, retAddr := 4 } ∧
    (WrapCalloc (some (reentrantBacktrace [1, 2, 3, 4] 12288 24 1))
        { g_stats := Statistics.init, g_areWeInMain := true,
          g_backtraceGuard := TLS_MARKER_FALSE }
        (fun _ _ => 4096) (2 ^ 32) (2 ^ 32 + 1)).2.g_stats.GetCallocedBytes = 2 ^ 32 ∧
    (WrapCalloc (some (reentrantBacktrace [1, 2, 3, 4] 12288 24 1))
        { g_stats := Statistics.init, g_areWeInMain := true,
          g_backtraceGuard := TLS_MARKER_FALSE }
        (fun _ _ => 4096) (2 ^ 32) (2 ^ 32 + 1)).2.g_stats.GetCallocCount = 1 := by
  have h := WrapCalloc_records_truncated_product (reentrantBacktrace [1, 2, 3, 4] 12288 24 1)
    { g_stats := Statistics.init, g_areWeInMain := true, g_backtraceGuard := TLS_MARKER_FALSE }
    (fun _ _ => 4096) (2 ^ 32) (2 ^ 32 + 1) (by decide) (by decide) (by decide)
  exact ⟨by decide, by decide, h.2.2.1, h.2.2.2.1⟩

/-! ## C7: the guard around the unwinder -/

/-- An unwinder that calls `malloc` is quiet under a suppressed guard: its call reaches
`WrapMalloc`, which then does nothing. -/
theorem reentrantBacktrace_quiet_when_suppressed (frames : List Nat) (addr size depth : Nat) :
    QuietWhenSuppressed (reentrantBacktrace frames addr size depth) := by
  intro n g hg
  cases depth with
  | zero => rfl
  | succ depth =>
    show (WrapMalloc (some (reentrantBacktrace frames addr size depth)) g (fun _ => addr) size).2
      = g
    rw [WrapMalloc_of_not_enabled _ _ _ _ (TRACE_ENABLED_of_suppressed _ g hg)]

/-- The nesting of an unwinder that calls `malloc` stops at the first level, where the guard
set by `WrapMalloc` is met: a deeper bound on the nesting changes nothing. -/
theorem reentrantBacktrace_depth (frames : List Nat) (addr size depth : Nat) :
    reentrantBacktrace frames addr size (depth + 1) = reentrantBacktrace frames addr size 1 := by
  funext n g
  show (frames.take n,
      (WrapMalloc (some (reentrantBacktrace frames addr size depth)) g (fun _ => addr) size).2)
    = (frames.take n,
      (WrapMalloc (some (reentrantBacktrace frames addr size 0)) g (fun _ => addr) size).2)
  cases hte : TRACE_ENABLED (some (reentrantBacktrace frames addr size depth)) g with
  | false =>
    have hte' : TRACE_ENABLED (some (reentrantBacktrace frames addr size 0)) g = false := hte
    rw [WrapMalloc_of_not_enabled _ _ _ _ hte, WrapMalloc_of_not_enabled _ _ _ _ hte']
  | true =>
    have hte' : TRACE_ENABLED (some (reentrantBacktrace frames addr size 0)) g = true := hte
    rw [WrapMalloc_of_enabled _ g _ size (reentrantBacktrace_quiet_when_suppressed _ _ _ _) hte,
      WrapMalloc_of_enabled _ g _ size (reentrantBacktrace_quiet_when_suppressed _ _ _ _) hte']
    cases depth with
    | zero => rfl
    | succ depth => rfl

/-- C7 on the code. Tracking is active on a fresh store.  With the unwinder `guardProbe`, the
return address that gets recorded is the value the guard had when the unwinder was invoked:
`TLS_MARKER_TRUE` under `WrapMalloc`, but `TLS_MARKER_FALSE` under `WrapCalloc` and under
`WrapRealloc`, which invoke the unwinder without suppressing the guard.  With an unwinder that
itself calls `malloc(24)` (answered with 12288), that inner call records nothing under
`WrapMalloc`, but under `WrapCalloc` and `WrapRealloc` it is counted as an allocate call and
its block is recorded in the live map.  The guard is not suppressed when each wrapper
returns. -/
theorem WrapCalloc_WrapRealloc_unwind_unguarded :
    MemMap.find (WrapMalloc (some guardProbe)
      { g_stats := Statistics.init, g_areWeInMain := true, g_backtraceGuard := TLS_MARKER_FALSE }
      (fun _ => 4096) 64).2.g_stats.GetMemoryMapClone 4096
      = some { size := 64, retAddr := TLS_MARKER_TRUE } ∧
    MemMap.find (WrapCalloc (some guardProbe)
      { g_stats := Statistics.init, g_areWeInMain := true, g_backtraceGuard := TLS_MARKER_FALSE }
      (fun _ _ => 4096) 8 8).2.g_stats.GetMemoryMapClone 4096
      = some { size := 64, retAddr := TLS_MARKER_FALSE } ∧
    MemMap.find (WrapRealloc (some guardProbe)
      { g_stats := Statistics.init, g_areWeInMain := true, g_backtraceGuard := TLS_MARKER_FALSE }
      (fun _ _ => 4096) 0 64).2.g_stats.GetMemoryMapClone 4096
      = some { size := 64, retAddr := TLS_MARKER_FALSE } ∧
    ((WrapMalloc (some (reentrantBacktrace [1, 2, 3, 4] 12288 24 1))
      { g_stats := Statistics.init, g_areWeInMain := true, g_backtraceGuard := TLS_MARKER_FALSE }
      (fun _ => 4096) 64).2.g_stats.GetMallocCount = 1 ∧
     MemMap.find (WrapMalloc (some (reentrantBacktrace [1, 2, 3, 4] 12288 24 1))
      { g_stats := Statistics.init, g_areWeInMain := true, g_backtraceGuard := TLS_MARKER_FALSE }
      (fun _ => 4096) 64).2.g_stats.GetMemoryMapClone 12288 = none) ∧
    ((WrapCalloc (some (reentrantBacktrace [1, 2, 3, 4] 12288 24 1))
      { g_stats := Statistics.init, g_areWeInMain := true, g_backtraceGuard := TLS_MARKER_FALSE }
      (fun _ _ => 4096) 8 8).2.g_stats.GetMallocCount = 1 ∧
     MemMap.find (WrapCalloc (some (reentrantBacktrace [1, 2, 3, 4] 12288 24 1))
      { g_stats := Statistics.init, g_areWeInMain := true, g_backtraceGuard := TLS_MARKER_FALSE }
      (fun _ _ => 4096) 8 8).2.g_stats.GetMemoryMapClone 12288
      = some { size := 24, retAddr := 4 }) ∧
    ((WrapRealloc (some (reentrantBacktrace [1, 2, 3, 4] 12288 24 1))
      { g_stats := Statistics.init, g_areWeInMain := true, g_backtraceGuard := TLS_MARKER_FALSE }
      (fun _ _ => 4096) 0 64).2.g_stats.GetMallocCount = 1 ∧
     MemMap.find (WrapRealloc (some (reentrantBacktrace [1, 2, 3, 4] 12288 24 1))
      { g_stats := Statistics.init, g_areWeInMain := true, g_backtraceGuard := TLS_MARKER_FALSE }
      (fun _ _ => 4096) 0 64).2.g_stats.GetMemoryMapClone 12288
      = some { size := 24, retAddr := 4 }) ∧
    (WrapMalloc (some guardProbe)
      { g_stats := Statistics.init, g_areWeInMain := true, g_backtraceGuard := TLS_MARKER_FALSE }
      (fun _ => 4096) 64).2.g_backtraceGuard = TLS_MARKER_FALSE ∧
    (WrapCalloc (some guardProbe)
      { g_stats := Statistics.init, g_areWeInMain := true, g_backtraceGuard := TLS_MARKER_FALSE }
      (fun _ _ => 4096) 8 8).2.g_backtraceGuard = TLS_MARKER_FALSE ∧
    (WrapRealloc (some guardProbe)
      { g_stats := Statistics.init, g_areWeInMain := true, g_backtraceGuard := TLS_MARKER_FALSE }
      (fun _ _ => 4096) 0 64).2.g_backtraceGuard = TLS_MARKER_FALSE := by
  decide

/-! ## C3: the report -/

theorem sum_update_thread (f : Thread → Nat) (threads : Nat → Thread) (t : Nat) (th : Thread)
    (T : Nat) (ht : t < T) :
    (Finset.range T).sum (fun u => f (Function.update threads t th u)) + f (threads t)
      = (Finset.range T).sum (fun u => f (threads u)) + f th := by
  induction T with
  | zero => exact absurd ht (Nat.not_lt_zero t)
  | succ T ih =>
    rw [Finset.sum_range_succ, Finset.sum_range_succ]
    rcases Nat.lt_succ_iff_lt_or_eq.mp ht with hlt | heq
    · have hne : T ≠ t := fun e => absurd hlt (by rw [e]; exact Nat.lt_irrefl t)
      rw [Function.update_noteq hne]
      have := ih hlt
      omega
    · subst heq
      rw [Function.update_same]
      have hsame : (Finset.range t).sum (fun u => f (Function.update threads t th u))
          = (Finset.range t).sum (fun u => f (threads u)) := by
        refine Finset.sum_congr rfl (fun u hu => ?_)
        have hne : u ≠ t := fun e => by
          rw [e] at hu; exact absurd (Finset.mem_range.mp hu) (Nat.lt_irrefl t)
        rw [Function.update_noteq hne]
      rw [hsame]
      omega

theorem modEq_of_update (m a a' x x' s s' : Nat) (hsum : s' + x = s + x')
    (h : (a' + x') % m = (a + x) % m) : (a' + s') % m = (a + s) % m := by
  have h1 : (a' + s' + (x + x')) % m = (a + s + (x + x')) % m := by
    have e1 : a' + s' + (x + x') = a' + x' + (s + x') := by omega
    have e2 : a + s + (x + x') = a + x + (s + x') := by omega
    rw [e1, e2]
    exact Nat.ModEq.add_right _ h
  exact Nat.ModEq.add_right_cancel' _ h1

/-- The invariant after a step that changes thread `t` only, given what the step does to the
store, to the holder of `mallocGuard` and to the thread. -/
theorem Inv.update {T N B : Nat} {p : Process} (h : Inv T N B p) (t : Nat) (ht : t < T)
    (th : Thread) (s : Statistics) (g m : Option Nat)
    (hexclT : InCritical th → g = some t)
    (hexclO : ∀ u, u ≠ t → InCritical (p.threads u) → g = some u)
    (hregBT : th.calls ≠ [] → th.pc = 2 → th.tmp = s.mallocedBytes)
    (hregBO : ∀ u, u ≠ t → (p.threads u).calls ≠ [] → (p.threads u).pc = 2 →
      (p.threads u).tmp = s.mallocedBytes)
    (hregCT : th.calls ≠ [] → th.pc = 4 → th.tmp = s.mallocCount)
    (hregCO : ∀ u, u ≠ t → (p.threads u).calls ≠ [] → (p.threads u).pc = 4 →
      (p.threads u).tmp = s.mallocCount)
    (hcount : (s.mallocCount + pendingCount th) % UINT32_MOD
      = (p.g_stats.mallocCount + pendingCount (p.threads t)) % UINT32_MOD)
    (hbytes : (s.mallocedBytes + pendingBytes th) % UINT64_MOD
      = (p.g_stats.mallocedBytes + pendingBytes (p.threads t)) % UINT64_MOD)
    (hcr : s.mallocCount < UINT32_MOD) (hbr : s.mallocedBytes < UINT64_MOD) :
    Inv T N B
      { g_stats := s, mallocGuard := g, mapGuard := m,
        threads := Function.update p.threads t th } := by
  refine ⟨fun u hu => ?_, fun u h1 h2 => ?_, fun u h1 h2 => ?_, ?_, ?_, hcr, hbr,
    fun u hu => ?_⟩
  · by_cases e : u = t
    · subst e
      simp only [Function.update_same] at hu
      exact hexclT hu
    · simp only [Function.update_noteq e] at hu
      exact hexclO u e hu
  · by_cases e : u = t
    · subst e
      simp only [Function.update_same] at h1 h2 ⊢
      exact hregBT h1 h2
    · simp only [Function.update_noteq e] at h1 h2 ⊢
      exact hregBO u e h1 h2
  · by_cases e : u = t
    · subst e
      simp only [Function.update_same] at h1 h2 ⊢
      exact hregCT h1 h2
    · simp only [Function.update_noteq e] at h1 h2 ⊢
      exact hregCO u e h1 h2
  · rw [← h.count]
    exact modEq_of_update _ _ _ _ _ _ _ (sum_update_thread pendingCount p.threads t th T ht)
      hcount
  · rw [← h.bytes]
    exact modEq_of_update _ _ _ _ _ _ _ (sum_update_thread pendingBytes p.threads t th T ht)
      hbytes
  · have e : u ≠ t := fun e => absurd (e ▸ hu) (Nat.not_le_of_lt ht)
    simp only [Function.update_noteq e]
    exact h.idle u hu

/-- While thread `t` is between lock and unlock of `mallocGuard`, no other thread is. -/
theorem Inv.alone {T N B : Nat} {p : Process} (h : Inv T N B p) {t u : Nat}
    (ht : InCritical (p.threads t)) (hu : InCritical (p.threads u)) : u = t := by
  have h1 := h.excl t ht
  have h2 := h.excl u hu
  rw [h1] at h2
  exact (Option.some.inj h2).symm

/-- Every step of every thread keeps the invariant. -/
theorem Inv.step {T N B : Nat} {p : Process} (h : Inv T N B p) (t : Nat) :
    Inv T N B (stepThread t p) := by
  unfold stepThread
  split
  · exact h
  · rename_i c rest hcalls
    have hne : (p.threads t).calls ≠ [] := by rw [hcalls]; exact List.cons_ne_nil _ _
    have ht : t < T := by
      by_contra hge
      exact hne (h.idle t (Nat.le_of_not_lt hge))
    split
    · -- lock mallocGuard
      rename_i hpc
      split
      · exact h
      · rename_i hfree
        refine h.update t ht _ _ _ _ (fun _ => rfl) (fun u _ hu => ?_) (fun _ h2 => ?_)
          (fun u _ => h.regBytes u) (fun _ h2 => ?_) (fun u _ => h.regCount u) ?_ ?_
          h.countRange h.bytesRange
        · have := h.excl u hu; rw [hfree] at this; cases this
        · cases h2
        · cases h2
        · simp [pendingCount, hcalls, hpc]
        · simp [pendingBytes, hcalls, hpc]
    · -- read mallocedBytes
      rename_i hpc
      have hcrit : InCritical (p.threads t) := ⟨hne, by omega, by omega⟩
      refine h.update t ht _ _ _ _ (fun _ => h.excl t hcrit) (fun u _ hu => h.excl u hu)
        (fun _ _ => rfl) (fun u _ => h.regBytes u) (fun _ h2 => ?_)
        (fun u _ => h.regCount u) ?_ ?_ h.countRange h.bytesRange
      · cases h2
      · simp [pendingCount, hcalls, hpc]
      · simp [pendingBytes, hcalls, hpc]
    · -- write mallocedBytes
      rename_i hpc
      have hcrit : InCritical (p.threads t) := ⟨hne, by omega, by omega⟩
      have hother : ∀ u, u ≠ t → ¬ InCritical (p.threads u) :=
        fun u hu hc => hu (h.alone hcrit hc)
      refine h.update t ht _ _ _ _ (fun _ => h.excl t hcrit) (fun u _ hu => h.excl u hu)
        (fun _ h2 => ?_) (fun u hu h1 h2 => ?_) (fun _ h2 => ?_)
        (fun u _ => h.regCount u) ?_ ?_ h.countRange (Nat.mod_lt _ (by decide))
      · cases h2
      · exact absurd ⟨h1, by omega, by omega⟩ (hother u hu)
      · cases h2
      · simp [pendingCount, hcalls, hpc]
      · rw [h.regBytes t hne hpc]
        simp only [pendingBytes, hcalls, hpc]
        simp only [Nat.mod_add_mod]
        congr 1
        simp
        omega
    · -- read mallocCount
      rename_i hpc
      have hcrit : InCritical (p.threads t) := ⟨hne, by omega, by omega⟩
      refine h.update t ht _ _ _ _ (fun _ => h.excl t hcrit) (fun u _ hu => h.excl u hu)
        (fun _ h2 => ?_) (fun u _ => h.regBytes u) (fun _ _ => rfl)
        (fun u _ => h.regCount u) ?_ ?_ h.countRange h.bytesRange
      · cases h2
      · simp [pendingCount, hcalls, hpc]
      · simp [pendingBytes, hcalls, hpc]
    · -- write mallocCount
      rename_i hpc
      have hcrit : InCritical (p.threads t) := ⟨hne, by omega, by omega⟩
      have hother : ∀ u, u ≠ t → ¬ InCritical (p.threads u) :=
        fun u hu hc => hu (h.alone hcrit hc)
      refine h.update t ht _ _ _ _ (fun _ => h.excl t hcrit) (fun u _ hu => h.excl u hu)
        (fun _ h2 => ?_) (fun u _ => h.regBytes u) (fun _ h2 => ?_)
        (fun u hu h1 h2 => ?_) ?_ ?_ (Nat.mod_lt _ (by decide)) h.bytesRange
      · cases h2
      · cases h2
      · exact absurd ⟨h1, by omega, by omega⟩ (hother u hu)
      · rw [h.regCount t hne hpc]
        simp only [pendingCount, hcalls, hpc]
        simp only [Nat.mod_add_mod]
        congr 1
        simp
        omega
      · simp [pendingBytes, hcalls, hpc]
    · -- unlock mallocGuard
      rename_i hpc
      have hcrit : InCritical (p.threads t) := ⟨hne, by omega, by omega⟩
      have hother : ∀ u, u ≠ t → ¬ InCritical (p.threads u) :=
        fun u hu hc => hu (h.alone hcrit hc)
      refine h.update t ht _ _ _ _ (fun hc => ?_) (fun u hu hc => absurd hc (hother u hu))
        (fun _ h2 => ?_) (fun u _ => h.regBytes u) (fun _ h2 => ?_)
        (fun u _ => h.regCount u) ?_ ?_ h.countRange h.bytesRange
      · exact absurd hc.2.2 (by simp)
      · cases h2
      · cases h2
      · simp [pendingCount, hcalls, hpc]
      · simp [pendingBytes, hcalls, hpc]
    · -- lock mapGuard
      rename_i hpc
      split
      · exact h
      · refine h.update t ht _ _ _ _ (fun hc => ?_) (fun u _ hu => h.excl u hu)
          (fun _ h2 => ?_) (fun u _ => h.regBytes u) (fun _ h2 => ?_)
          (fun u _ => h.regCount u) ?_ ?_ h.countRange h.bytesRange
        · exact absurd hc.2.2 (by simp)
        · cases h2
        · cases h2
        · simp [pendingCount, hcalls, hpc]
        · simp [pendingBytes, hcalls, hpc]
    · -- memMap[memAddr] = ...
      rename_i hpc
      refine h.update t ht _ _ _ _ (fun hc => ?_) (fun u _ hu => h.excl u hu)
        (fun _ h2 => ?_) (fun u _ => h.regBytes u) (fun _ h2 => ?_)
        (fun u _ => h.regCount u) ?_ ?_ h.countRange h.bytesRange
      · exact absurd hc.2.2 (by simp)
      · cases h2
      · cases h2
      · simp [pendingCount, hcalls, hpc]
      · simp [pendingBytes, hcalls, hpc]
    · -- unlock mapGuard, return
      rename_i hpc
      refine h.update t ht _ _ _ _ (fun hc => ?_) (fun u _ hu => h.excl u hu)
        (fun _ h2 => ?_) (fun u _ => h.regBytes u) (fun _ h2 => ?_)
        (fun u _ => h.regCount u) ?_ ?_ h.countRange h.bytesRange
      · exact absurd hc.2.1 (by simp)
      · cases h2
      · cases h2
      · cases rest <;> simp [pendingCount, hcalls, hpc]
      · cases rest
        · simp [pendingBytes, hcalls, hpc]
        · simp only [pendingBytes, hcalls, hpc]
          congr 1
          simp
          omega
    · exact h

theorem runSchedule_append (p : Process) (s1 s2 : List Nat) :
    runSchedule p (s1 ++ s2) = runSchedule (runSchedule p s1) s2 := by
  simp [runSchedule, List.foldl_append]

/-- The invariant holds at the start. -/
theorem Inv.start (T : Nat) (programs : Nat → List TrackedCall) :
    Inv T ((Finset.range T).sum (fun t => (programs t).length))
      ((Finset.range T).sum (fun t => ((programs t).map TrackedCall.memSize).sum))
      (startProcess T programs) := by
  refine ⟨fun t ht => ?_, fun t _ h2 => ?_, fun t _ h2 => ?_, ?_, ?_,
    (by decide : (0 : Nat) < UINT32_MOD), (by decide : (0 : Nat) < UINT64_MOD), fun t ht => ?_⟩
  · exact absurd ht.2.1 (by simp [startProcess])
  · simp [startProcess] at h2
  · simp [startProcess] at h2
  · congr 1
    show 0 + _ = _
    rw [Nat.zero_add]
    refine Finset.sum_congr rfl (fun t ht => ?_)
    have hlt := Finset.mem_range.mp ht
    cases hp : programs t <;> simp [startProcess, pendingCount, hlt, hp]
  · congr 1
    show 0 + _ = _
    rw [Nat.zero_add]
    refine Finset.sum_congr rfl (fun t ht => ?_)
    have hlt := Finset.mem_range.mp ht
    cases hp : programs t <;> simp [startProcess, pendingBytes, hlt, hp, Nat.add_comm]
  · simp [startProcess, Nat.not_lt_of_le ht]

/-- The invariant holds after every schedule. -/
theorem Inv.run {T N B : Nat} {p : Process} (h : Inv T N B p) (schedule : List Nat) :
    Inv T N B (runSchedule p schedule) := by
  induction schedule generalizing p with
  | nil => exact h
  | cons t schedule ih => exact ih (h.step t)

/-- Once every thread has returned from its last call, the two counters hold the number of
calls and the number of bytes, modulo `2^32` and `2^64`. -/
theorem Inv.finished {T N B : Nat} {p : Process} (h : Inv T N B p) (hf : Finished T p) :
    p.g_stats.mallocCount = N % UINT32_MOD ∧ p.g_stats.mallocedBytes = B % UINT64_MOD := by
  have hc : (Finset.range T).sum (fun t => pendingCount (p.threads t)) = 0 :=
    Finset.sum_eq_zero (fun t ht => by simp [pendingCount, hf t (Finset.mem_range.mp ht)])
  have hb : (Finset.range T).sum (fun t => pendingBytes (p.threads t)) = 0 :=
    Finset.sum_eq_zero (fun t ht => by simp [pendingBytes, hf t (Finset.mem_range.mp ht)])
  have h1 := h.count
  have h2 := h.bytes
  rw [hc, Nat.add_zero, Nat.mod_eq_of_lt h.countRange] at h1
  rw [hb, Nat.add_zero, Nat.mod_eq_of_lt h.bytesRange] at h2
  exact ⟨h1, h2⟩

/-- Nine steps of a thread that no other thread interrupts make one `CountMalloc`. -/
theorem runSchedule_call (p : Process) (t : Nat) (c : TrackedCall) (rest : List TrackedCall)
    (hg : p.mallocGuard = none) (hm : p.mapGuard = none) (hpc : (p.threads t).pc = 0)
    (hcalls : (p.threads t).calls = c :: rest) :
    runSchedule p (List.replicate 9 t) =
      { g_stats := p.g_stats.CountMalloc c.memAddr c.memSize c.retAddr,
        mallocGuard := none, mapGuard := none,
        threads := Function.update p.threads t
          { pc := 0, tmp := p.g_stats.mallocCount, calls := rest } } := by
  cases p with
  | mk s g m threads =>
    simp only at hg hm hpc hcalls
    subst hg hm
    simp [runSchedule, List.replicate, stepThread, hpc, hcalls, Statistics.CountMalloc]

/-- A thread that no other thread interrupts makes all its calls and returns, with both
mutexes free again and the other threads where they were. -/
theorem runSchedule_thread (t : Nat) (calls : List TrackedCall) (p : Process)
    (hg : p.mallocGuard = none) (hm : p.mapGuard = none) (hpc : (p.threads t).pc = 0)
    (hcalls : (p.threads t).calls = calls) :
    (runSchedule p (List.replicate (9 * calls.length) t)).mallocGuard = none ∧
    (runSchedule p (List.replicate (9 * calls.length) t)).mapGuard = none ∧
    ((runSchedule p (List.replicate (9 * calls.length) t)).threads t).calls = [] ∧
    ((runSchedule p (List.replicate (9 * calls.length) t)).threads t).pc = 0 ∧
    ∀ u, u ≠ t → (runSchedule p (List.replicate (9 * calls.length) t)).threads u
      = p.threads u := by
  induction calls generalizing p with
  | nil => exact ⟨hg, hm, hcalls, hpc, fun _ _ => rfl⟩
  | cons c rest ih =>
    have hsplit : List.replicate (9 * (c :: rest).length) t
        = List.replicate 9 t ++ List.replicate (9 * rest.length) t := by
      rw [List.length_cons, Nat.mul_succ, Nat.add_comm, List.replicate_add]
    rw [hsplit, runSchedule_append, runSchedule_call p t c rest hg hm hpc hcalls]
    obtain ⟨i1, i2, i3, i4, i5⟩ := ih
      { g_stats := p.g_stats.CountMalloc c.memAddr c.memSize c.retAddr,
        mallocGuard := none, mapGuard := none,
        threads := Function.update p.threads t
          { pc := 0, tmp := p.g_stats.mallocCount, calls := rest } }
      rfl rfl (by simp) (by simp)
    refine ⟨i1, i2, i3, i4, fun u hu => ?_⟩
    rw [i5 u hu]
    exact Function.update_noteq hu _ _

/-- The sequential schedule lets the first `K` threads make all their calls. -/
theorem runSchedule_sequential (programs : Nat → List TrackedCall) (K : Nat) (p : Process)
    (hg : p.mallocGuard = none) (hm : p.mapGuard = none)
    (hpc : ∀ t, (p.threads t).pc = 0)
    (hcalls : ∀ t, t < K → (p.threads t).calls = programs t) :
    (runSchedule p (sequentialSchedule programs K)).mallocGuard = none ∧
    (runSchedule p (sequentialSchedule programs K)).mapGuard = none ∧
    (∀ t, ((runSchedule p (sequentialSchedule programs K)).threads t).pc = 0) ∧
    (∀ t, t < K → ((runSchedule p (sequentialSchedule programs K)).threads t).calls = []) ∧
    ∀ u, K ≤ u → (runSchedule p (sequentialSchedule programs K)).threads u = p.threads u := by
  induction K with
  | zero =>
    exact ⟨hg, hm, hpc, fun t ht => absurd ht (Nat.not_lt_zero t), fun _ _ => rfl⟩
  | succ K ih =>
    obtain ⟨i1, i2, i3, i4, i5⟩ := ih (fun t ht => hcalls t (Nat.lt_succ_of_lt ht))
    have hK : ((runSchedule p (sequentialSchedule programs K)).threads K).calls
        = programs K := by
      rw [i5 K (Nat.le_refl K)]; exact hcalls K (Nat.lt_succ_self K)
    obtain ⟨j1, j2, j3, j4, j5⟩ := runSchedule_thread K (programs K)
      (runSchedule p (sequentialSchedule programs K)) i1 i2 (i3 K) hK
    rw [sequentialSchedule, runSchedule_append]
    refine ⟨j1, j2, fun t => ?_, fun t ht => ?_, fun u hu => ?_⟩
    · by_cases e : t = K
      · rw [e]; exact j4
      · rw [j5 t e]; exact i3 t
    · rcases Nat.lt_succ_iff_lt_or_eq.mp ht with hlt | heq
      · rw [j5 t (Nat.ne_of_lt hlt)]; exact i4 t hlt
      · rw [heq]; exact j3
    · rw [j5 u (Nat.ne_of_gt (Nat.lt_of_succ_le hu))]
      exact i5 u (Nat.le_of_succ_le hu)

/-- The sequential schedule finishes every thread, from the start. -/
theorem finished_sequential (T : Nat) (programs : Nat → List TrackedCall) :
    Finished T (runSchedule (startProcess T programs) (sequentialSchedule programs T)) :=
  (runSchedule_sequential programs T (startProcess T programs) rfl rfl (fun _ => rfl)
    (fun t ht => by simp [startProcess, ht])).2.2.2.1

/-- The two counters at the end of any schedule that finishes `T` threads of `M` calls. -/
theorem counters_of_finished (T M : Nat) (programs : Nat → List TrackedCall)
    (hM : ∀ t, t < T → (programs t).length = M) (schedule : List Nat)
    (hf : Finished T (runSchedule (startProcess T programs) schedule)) :
    (runSchedule (startProcess T programs) schedule).g_stats.mallocCount
      = (T * M) % UINT32_MOD ∧
    (runSchedule (startProcess T programs) schedule).g_stats.mallocedBytes
      = ((Finset.range T).sum (fun t => ((programs t).map TrackedCall.memSize).sum))
          % UINT64_MOD := by
  have h := ((Inv.start T programs).run schedule).finished hf
  have hN : (Finset.range T).sum (fun t => (programs t).length) = T * M := by
    rw [Finset.sum_congr rfl (fun t ht => hM t (Finset.mem_range.mp ht))]
    simp
  rw [hN] at h
  exact h

/-- The sequential schedule finishes two threads that make the same call `M` times each. -/
theorem finished_sequential_replicate (M : Nat) (c : TrackedCall) :
    Finished 2 (runSchedule (startProcess 2 (fun _ => List.replicate M c))
      (sequentialSchedule (fun _ => List.replicate M c) 2)) :=
  finished_sequential 2 _

/-- When `2 * M` is a multiple of `2^32`, two threads of `M` calls each leave the count at 0
under every schedule that finishes them. -/
theorem count_zero_of_wrap (M : Nat) (c : TrackedCall) (hM : 2 * M % UINT32_MOD = 0)
    (schedule : List Nat)
    (hf : Finished 2 (runSchedule (startProcess 2 (fun _ => List.replicate M c)) schedule)) :
    (runSchedule (startProcess 2 (fun _ => List.replicate M c)) schedule).g_stats.GetMallocCount
      = 0 := by
  have h := (counters_of_finished 2 M _ (fun _ _ => List.length_replicate _ _)
    schedule hf).1
  rw [hM] at h
  exact h

/-- C10, as stated, fails.  Two threads each make `2^31` tracked allocate calls of 16 bytes.
The schedule that runs them one after the other finishes both, and at the end of every
schedule that finishes both `GetMallocCount` is 0, not `2 * 2^31`: the count is a `UINT32`.
And when two threads each make one tracked call of `2^63` bytes (two requests that the
allocator refuses), `GetMallocedBytes` is 0 at the end, not `2^64`. -/
theorem concurrent_count_wraps_counterexample :
    Finished 2
      (runSchedule
        (startProcess 2
          (fun _ => List.replicate (2 ^ 31) { memAddr := 4096, memSize := 16, retAddr := 7 }))
        (sequentialSchedule
          (fun _ => List.replicate (2 ^ 31) { memAddr := 4096, memSize := 16, retAddr := 7 })
          2)) ∧
    (∀ schedule,
      Finished 2
        (runSchedule
          (startProcess 2
            (fun _ => List.replicate (2 ^ 31) { memAddr := 4096, memSize := 16, retAddr := 7 }))
          schedule) →
      (runSchedule
        (startProcess 2
          (fun _ => List.replicate (2 ^ 31) { memAddr := 4096, memSize := 16, retAddr := 7 }))
        schedule).g_stats.GetMallocCount = 0) ∧
    2 * 2 ^ 31 = 4294967296 ∧
    (runSchedule
      (startProcess 2 (fun _ => [{ memAddr := 0, memSize := 2 ^ 63, retAddr := 7 }]))
      [0, 1, 0, 1, 0, 1, 0, 1, 0, 1, 0, 1, 0, 0, 0, 1, 1, 1, 1, 1, 1, 1]).g_stats.GetMallocedBytes
      = 0 ∧
    (runSchedule
      (startProcess 2 (fun _ => [{ memAddr := 0, memSize := 2 ^ 63, retAddr := 7 }]))
      [0, 1, 0, 1, 0, 1, 0, 1, 0, 1, 0, 1, 0, 0, 0, 1, 1, 1, 1, 1, 1, 1]).g_stats.GetMallocCount
      = 2 ∧
    2 ^ 63 + 2 ^ 63 = 18446744073709551616 :=
  ⟨finished_sequential_replicate _ _,
    fun schedule hf => count_zero_of_wrap _ _ (by decide) schedule hf, by decide, by decide,
    by decide, by decide⟩

/-- C10, amended. For every `T` and `M`, when `T` threads each make `M` tracked allocate
calls, under any interleaving of their steps in `CountMalloc`: once all the calls have
returned, the allocate count is `T * M` modulo `2^32` and the allocate total is the sum of all
requested sizes modulo `2^64`, so `T * M` and the sum themselves when these are below `2^32`
and `2^64`: no update of the counters guarded by `mallocGuard` is lost.  The calls do all
return under some schedule, the sequential one for instance. -/
theorem concurrent_allocate_no_lost_update (T M : Nat) (programs : Nat → List TrackedCall)
    (hM : ∀ t, t < T → (programs t).length = M) :
    (∀ schedule, Finished T (runSchedule (startProcess T programs) schedule) →
      (runSchedule (startProcess T programs) schedule).g_stats.GetMallocCount
        = (T * M) % 2 ^ 32 ∧
      (runSchedule (startProcess T programs) schedule).g_stats.GetMallocedBytes
        = ((Finset.range T).sum (fun t => ((programs t).map TrackedCall.memSize).sum))
            % 2 ^ 64 ∧
      (T * M < 2 ^ 32 →
        (runSchedule (startProcess T programs) schedule).g_stats.GetMallocCount = T * M) ∧
      ((Finset.range T).sum (fun t => ((programs t).map TrackedCall.memSize).sum) < 2 ^ 64 →
        (runSchedule (startProcess T programs) schedule).g_stats.GetMallocedBytes
          = (Finset.range T).sum (fun t => ((programs t).map TrackedCall.memSize).sum))) ∧
    Finished T (runSchedule (startProcess T programs) (sequentialSchedule programs T)) := by
  refine ⟨fun schedule hf => ?_, finished_sequential T programs⟩
  obtain ⟨h1, h2⟩ := counters_of_finished T M programs hM schedule hf
  refine ⟨h1, h2, fun hlt => ?_, fun hlt => ?_⟩
  · exact h1.trans (Nat.mod_eq_of_lt hlt)
  · exact h2.trans (Nat.mod_eq_of_lt hlt)

/-- C10, amended, for two threads of two calls each under a schedule that interleaves them:
thread 1 asks for `mallocGuard` while thread 0 holds it, and has to wait. -/
theorem concurrent_allocate_no_lost_update_witness :
    (runSchedule
      (startProcess 2 (fun t =>
        if t = 0 then
          [{ memAddr := 4096, memSize := 16, retAddr := 7 },
            { memAddr := 8192, memSize := 32, retAddr := 7 }]
        else
          [{ memAddr := 12288, memSize := 8, retAddr := 9 },
            { memAddr := 16384, memSize := 64, retAddr := 9 }]))
      [0, 1, 0, 1, 1, 0, 0, 1, 0, 0, 1, 1, 1, 1, 1, 0, 1, 0, 1, 0, 1, 0, 1, 0, 1, 0, 1, 0, 1, 0,
        1, 0, 0, 0, 0, 1, 1, 1, 1, 1, 1, 0, 0, 1, 1, 0, 1]).g_stats.GetMallocCount = 4 ∧
    (runSchedule
      (startProcess 2 (fun t =>
        if t = 0 then
          [{ memAddr := 4096, memSize := 16, retAddr := 7 },
            { memAddr := 8192, memSize := 32, retAddr := 7 }]
        else
          [{ memAddr := 12288, memSize := 8, retAddr := 9 },
            { memAddr := 16384, memSize := 64, retAddr := 9 }]))
      [0, 1, 0, 1, 1, 0, 0, 1, 0, 0, 1, 1, 1, 1, 1, 0, 1, 0, 1, 0, 1, 0, 1, 0, 1, 0, 1, 0, 1, 0,
        1, 0, 0, 0, 0, 1, 1, 1, 1, 1, 1, 0, 0, 1, 1, 0, 1]).g_stats.GetMallocedBytes = 120 := by
  have h := (concurrent_allocate_no_lost_update 2 2
    (fun t =>
      if t = 0 then
        [{ memAddr := 4096, memSize := 16, retAddr := 7 },
          { memAddr := 8192, memSize := 32, retAddr := 7 }]
      else
        [{ memAddr := 12288, memSize := 8, retAddr := 9 },
          { memAddr := 16384, memSize := 64, retAddr := 9 }])
    (fun t ht => by interval_cases t <;> rfl)).1
    [0, 1, 0, 1, 1, 0, 0, 1, 0, 0, 1, 1, 1, 1, 1, 0, 1, 0, 1, 0, 1, 0, 1, 0, 1, 0, 1, 0, 1, 0,
      1, 0, 0, 0, 0, 1, 1, 1, 1, 1, 1, 0, 0, 1, 1, 0, 1]
    (by unfold Finished; decide)
  exact ⟨h.2.2.1 (by decide), h.2.2.2 (by decide)⟩

end MemProfiler
